import Mathlib

/-!
Verification of the Cassandra/Astra DB online store
(feast_cassandra_online_store/cassandra_online_store.py).

The Python module is shallowly embedded as pure Lean functions over explicit
state.  External collaborators (the DataStax driver session, the Cassandra
store itself, and the feast/protobuf codecs) are modelled from the spec where
noted; everything else is translated directly from the source.

Modelling conventions:
  - timestamps (datetime) are Nat;
  - byte strings (protobuf payloads) are lists of Nat;
  - the rendered CQL statement text (template.format in the source) is kept
    structurally as a CqlText value carrying the substituted fields, since the
    claims only observe which template was rendered and with which table name;
  - the entity-key codec serialize_entity_key(k).hex() and the value codec
    SerializeToString/ParseFromString are external pure functions, passed in
    as parameters;
  - Python attribute semantics: _session, _cluster and _keyspace are rebound
    per instance (InstanceState), while _prepared_statements is mutated in
    place through the class attribute and is therefore process-shared state
    (Shared), together with the external database and the observable event
    trace (statement executions, driver prepare calls, progress callbacks).
-/

namespace FeastCassandra

/-- Byte strings as produced by the external value serializer. -/
abbrev Bytes := List Nat

/-- Source constant E_CASSANDRA_UNEXPECTED_CONFIGURATION_CLASS. -/
def E_CASSANDRA_UNEXPECTED_CONFIGURATION_CLASS : String :=
  "Unexpected configuration object (not a CassandraOnlineStoreConfig instance)"

/-- Source constant E_CASSANDRA_NOT_CONFIGURED (quote characters elided). -/
def E_CASSANDRA_NOT_CONFIGURED : String :=
  "Inconsistent Cassandra configuration: provide exactly one between hosts and secure_bundle_path and a keyspace"

/-- Source constant E_CASSANDRA_MISCONFIGURED (quote characters elided). -/
def E_CASSANDRA_MISCONFIGURED : String :=
  "Inconsistent Cassandra configuration: provide either hosts or secure_bundle_path, not both"

/-- Source constant E_CASSANDRA_INCONSISTENT_AUTH. -/
def E_CASSANDRA_INCONSISTENT_AUTH : String :=
  "Username and password for Cassandra must be provided either both or none"

/-- Errors surfaced to the caller: CassandraInvalidConfig exceptions, driver
KeyError on an unknown operation name, and store/driver operation failures. -/
inductive StoreError where
  | invalidConfig (msg : String)
  | keyErr (op : String)
  | storeOp (msg : String)
deriving DecidableEq

/-- The pydantic model CassandraOnlineStoreConfig.  All fields are optional in
the sense of Python None defaults (keyspace is annotated StrictStr but its
default value is None, hence Option). -/
structure CassandraOnlineStoreConfig where
  hosts : Option (List String)
  secure_bundle_path : Option String
  port : Option Int
  keyspace : Option String
  username : Option String
  password : Option String
deriving DecidableEq

/-- The runtime type of config.online_store: either the expected
CassandraOnlineStoreConfig or some other online-store config class
(the isinstance check in _get_session distinguishes exactly this). -/
inductive OnlineStoreConfig where
  | cassandra (c : CassandraOnlineStoreConfig)
  | otherStore
deriving DecidableEq

/-- The slice of feast RepoConfig used by the module. -/
structure RepoConfig where
  online_store : OnlineStoreConfig
  project : String
deriving DecidableEq

/-- The slice of feast FeatureView used by the module (only .name is read). -/
structure FeatureView where
  name : String
deriving DecidableEq

/-- cassandra.auth.PlainTextAuthProvider, by its constructor arguments. -/
structure AuthProvider where
  username : String
  password : Option String
deriving DecidableEq

/-- cassandra.cluster.Cluster, by its constructor arguments: either a host
list with a port, or a cloud secure-connect bundle, plus the auth provider. -/
structure Cluster where
  hosts : Option (List String)
  port : Option Int
  cloud_secure_connect_bundle : Option String
  auth_provider : Option AuthProvider
deriving DecidableEq

/-- A driver Session, as produced by Cluster.connect(keyspace). -/
structure Session where
  cluster : Cluster
  keyspace : Option String
deriving DecidableEq

/-- Per-instance attributes of CassandraOnlineStore.  Assignments
self._cluster = ..., self._session = ..., self._keyspace = ... rebind
instance attributes, so these are per store instance. -/
structure InstanceState where
  _cluster : Option Cluster
  _session : Option Session
  _keyspace : Option String
deriving DecidableEq

/-- Python truthiness of an optional list (None and [] are falsy). -/
def truthyList (x : Option (List String)) : Bool :=
  match x with
  | none => false
  | some l => !l.isEmpty

/-- Python truthiness of an optional string (None and the empty string are falsy). -/
def truthyStr (x : Option String) : Bool :=
  match x with
  | none => false
  | some s => !s.isEmpty

/-- Python str() of an optional string, as used in f-strings (None prints as None). -/
def pyStr (x : Option String) : String :=
  match x with
  | some s => s
  | none => "None"

/-- CassandraOnlineStore._get_session: config-type check, cached-session
fast path, configuration consistency checks, cluster and session creation.
Returns the session together with the updated instance state. -/
def _get_session (config : RepoConfig) (self : InstanceState) :
    Except StoreError (Session × InstanceState) :=
  match config.online_store with
  | .otherStore => .error (.invalidConfig E_CASSANDRA_UNEXPECTED_CONFIGURATION_CLASS)
  | .cassandra online_store_config =>
    match self._session with
    | some s => .ok (s, self)
    | none =>
      let hosts := online_store_config.hosts
      let secure_bundle_path := online_store_config.secure_bundle_path
      let port : Int :=
        match online_store_config.port with
        | some p => if p == 0 then 9042 else p
        | none => 9042
      let keyspace := online_store_config.keyspace
      let username := online_store_config.username
      let password := online_store_config.password
      if !(truthyList hosts || truthyStr secure_bundle_path) || !(truthyStr keyspace) then
        .error (.invalidConfig E_CASSANDRA_NOT_CONFIGURED)
      else if truthyList hosts && truthyStr secure_bundle_path then
        .error (.invalidConfig E_CASSANDRA_MISCONFIGURED)
      else if username.isNone != password.isNone then
        .error (.invalidConfig E_CASSANDRA_INCONSISTENT_AUTH)
      else
        let auth_provider : Option AuthProvider :=
          match username with
          | some u => some ⟨u, password⟩
          | none => none
        let cluster : Cluster :=
          if truthyList hosts then
            { hosts := hosts, port := some port,
              cloud_secure_connect_bundle := none, auth_provider := auth_provider }
          else
            { hosts := none, port := none,
              cloud_secure_connect_bundle := secure_bundle_path,
              auth_provider := auth_provider }
        let sess : Session := { cluster := cluster, keyspace := keyspace }
        .ok (sess,
          { self with _cluster := some cluster, _session := some sess,
                      _keyspace := keyspace })

/-- Rendered CQL statement text.  The source renders template.format(fqtable,
**kwargs) to a string; the rendering is kept structurally, with the selected
template and the substituted fields, which is what the claims observe. -/
inductive CqlText where
  | insert4 (fqtable : String)
  | insert5 (fqtable : String)
  | selectT (columns : String) (fqtable : String)
  | createT (fqtable : String)
  | dropT (fqtable : String)
deriving DecidableEq

/-- A prepared-statement handle as returned by session.prepare: a fresh
driver-side identifier together with the prepared text. -/
structure Handle where
  hid : Nat
  text : CqlText
deriving DecidableEq

/-- What _get_cql_statement returns: a prepared handle for DML, or the plain
rendered text for DDL. -/
inductive CqlStatement where
  | prepared (h : Handle)
  | simple (t : CqlText)
deriving DecidableEq

/-- The statement text a CqlStatement stands for. -/
def stmtText : CqlStatement → CqlText
  | .prepared h => h.text
  | .simple t => t

/-- Values bound to a statement on execution. -/
inductive CqlParam where
  | str (s : String)
  | blob (b : Bytes)
  | ts (t : Nat)
deriving DecidableEq

/-- One physical row of a feature-view table (the CREATE TABLE schema). -/
structure DbRow where
  table : String
  entity_key : String
  feature_name : String
  value : Bytes
  event_ts : Nat
  created_ts : Option Nat
deriving DecidableEq

/-- The external database content: rows of all tables. -/
abbrev Db := List DbRow

/-- Observable interactions with the outside world, in chronological order:
driver prepare calls, statement executions, and progress-callback calls. -/
inductive Event where
  | prepareEvt (text : CqlText)
  | execEvt (stmt : CqlStatement) (params : List CqlParam)
  | progressEvt (n : Nat)
deriving DecidableEq

/-- Process-shared state: the class attribute _prepared_statements (mutated in
place, hence shared by every CassandraOnlineStore instance), the driver
prepare counter generating fresh handles, the external database and the
event trace. -/
structure Shared where
  prepared_statements : List (List String × Handle)
  prepareSeq : Nat
  db : Db
  events : List Event
deriving DecidableEq

/-- CQL_TEMPLATE_MAP: op_name -> (template, prepare flag).  The template is
the structural rendering function standing for template.format. -/
def CQL_TEMPLATE_MAP (op_name : String) :
    Option ((String → List (String × String) → CqlText) × Bool) :=
  if op_name = "insert4" then some (fun fqtable _ => .insert4 fqtable, true)
  else if op_name = "insert5" then some (fun fqtable _ => .insert5 fqtable, true)
  else if op_name = "select" then
    some (fun fqtable kwargs => .selectT ((kwargs.lookup ("columns")).getD ("")) fqtable, true)
  else if op_name = "drop" then some (fun fqtable _ => .dropT fqtable, false)
  else if op_name = "create" then some (fun fqtable _ => .createT fqtable, false)
  else none

/-- Ordering used by Python sorted() on the (key, value) pairs of kwargs. -/
def pairLe (a b : String × String) : Bool :=
  match compare a.1 b.1 with
  | .lt => true
  | .gt => false
  | .eq =>
    match compare a.2 b.2 with
    | .gt => false
    | _ => true

/-- Insertion step of the sorting of kwargs items. -/
def insertPairSorted (x : String × String) :
    List (String × String) → List (String × String)
  | [] => [x]
  | y :: ys => if pairLe x y then x :: y :: ys else y :: insertPairSorted x ys

/-- sorted(kwargs.items()). -/
def sortPairs (l : List (String × String)) : List (String × String) :=
  l.foldr insertPairSorted []

/-- The cache key of _get_cql_statement:
tuple([op_name, fqtable] + [str(v) @ str(k) for k, v in sorted(kwargs.items())]). -/
def cacheKeyOf (op_name fqtable : String) (kwargs : List (String × String)) :
    List String :=
  [op_name, fqtable] ++ (sortPairs kwargs).map (fun kv => kv.2 ++ "@" ++ kv.1)

/-- CassandraOnlineStore._get_cql_statement: resolve an op name into a CQL
statement; prepared statements go through the shared cache (prepare on miss,
reuse on hit), DDL text is returned directly. -/
def _get_cql_statement (config : RepoConfig) (op_name : String) (fqtable : String)
    (kwargs : List (String × String)) (self : InstanceState) (sh : Shared) :
    Except StoreError (CqlStatement × InstanceState × Shared) :=
  match _get_session config self with
  | .error e => .error e
  | .ok (_session, self1) =>
    match CQL_TEMPLATE_MAP op_name with
    | none => .error (.keyErr op_name)
    | some (template, prepare) =>
      let statement := template fqtable kwargs
      if prepare then
        let cache_key := cacheKeyOf op_name fqtable kwargs
        match sh.prepared_statements.lookup cache_key with
        | some handle => .ok (.prepared handle, self1, sh)
        | none =>
          let handle : Handle := ⟨sh.prepareSeq, statement⟩
          .ok (.prepared handle, self1,
            { sh with
              prepareSeq := sh.prepareSeq + 1
              events := sh.events ++ [Event.prepareEvt statement]
              prepared_statements := sh.prepared_statements ++ [(cache_key, handle)] })
      else
        .ok (.simple statement, self1, sh)

/-- CassandraOnlineStore._fq_table_name. -/
def _fq_table_name (keyspace : String) (project : String) (table : FeatureView) :
    String :=
  "\"" ++ keyspace ++ "\".\"" ++ project ++ "_" ++ table.name ++ "\""

/-- Modelled from the spec: the wide-column store executes an INSERT as an
upsert of the named columns of the row keyed by (entity_key) partition key
and (feature_name) clustering key; columns omitted from the statement are
left untouched (this is the tombstone-avoidance observable).  created is
none for the 4-column insert and some c for the 5-column one. -/
def applyInsertCql (fqtable feature_name : String) (value : Bytes)
    (entity_key : String) (event_ts : Nat) (created : Option Nat) : Db → Db
  | [] => [⟨fqtable, entity_key, feature_name, value, event_ts, created⟩]
  | r :: rest =>
    if r.table == fqtable && r.entity_key == entity_key &&
        r.feature_name == feature_name then
      { r with value := value, event_ts := event_ts,
               created_ts :=
                 match created with
                 | none => r.created_ts
                 | some c => some c } :: rest
    else r :: applyInsertCql fqtable feature_name value entity_key event_ts created rest

/-- Clustering order: rows of one partition are returned sorted by
feature_name ascending. -/
def rowLt (a b : DbRow) : Bool :=
  match compare a.feature_name b.feature_name with
  | .lt => true
  | _ => false

/-- Modelled from the spec: SELECT ... WHERE entity_key = ? returns the rows
of the partition, in clustering order (feature_name ascending: a row goes
before another when the other is not lower). -/
def selectRows (db : Db) (fqtable entity_key : String) : List DbRow :=
  List.insertionSort (fun a b => rowLt b a = false)
    (db.filter (fun r => r.table == fqtable && r.entity_key == entity_key))

/-- The failure model of the external session: a black box that may throw a
store error on any execution (connection failure, timeout, ...).  The
happy-path instantiation is noFailures. -/
structure Behavior where
  execFail : CqlStatement → List CqlParam → Db → Option StoreError

/-- The behavior in which no execution fails. -/
def noFailures : Behavior := ⟨fun _ _ _ => none⟩

/-- Modelled from the spec: session.execute(statement, params) against the
store.  Returns the updated database and the result rows.  The projection of
a SELECT is not narrowed: full rows are returned and the caller only reads
the projected attributes. -/
def sessionExecute (beh : Behavior) (stmt : CqlStatement) (params : List CqlParam)
    (db : Db) : Except StoreError (Db × List DbRow) :=
  match beh.execFail stmt params db with
  | some e => .error e
  | none =>
    match stmtText stmt, params with
    | .insert4 ft, [.str f, .blob v, .str ek, .ts t] =>
      .ok (applyInsertCql ft f v ek t none db, [])
    | .insert5 ft, [.str f, .blob v, .str ek, .ts t, .ts c] =>
      .ok (applyInsertCql ft f v ek t (some c) db, [])
    | .selectT _ ft, [.str ek] => .ok (db, selectRows db ft ek)
    | .createT _, [] => .ok (db, [])
    | .dropT ft, [] => .ok (db.filter (fun r => !(r.table == ft)), [])
    | _, _ => .error (.storeOp ("invalid statement binding"))

/-- One session.execute call as seen from the store code: the attempt is
recorded in the event trace (also when it fails), and the database is
updated on success. -/
def execOnSession (beh : Behavior) (stmt : CqlStatement) (params : List CqlParam)
    (sh : Shared) : Except StoreError (List DbRow) × Shared :=
  match sessionExecute beh stmt params sh.db with
  | .error e => (.error e, { sh with events := sh.events ++ [Event.execEvt stmt params] })
  | .ok (db1, rows) =>
    (.ok rows, { sh with db := db1, events := sh.events ++ [Event.execEvt stmt params] })

/-- The inner loop of _write_rows: for feature_name, val in features_vals,
execute the insert with [feature_name, serialize(val)] + fixed_vals. -/
def writeFeaturesLoop {V : Type} (ser : V → Bytes) (beh : Behavior)
    (insert_cql : CqlStatement) (fixed_vals : List CqlParam) :
    List (String × V) → Shared → Except StoreError Unit × Shared
  | [], sh => (.ok (), sh)
  | (feature_name, val) :: rest, sh =>
    match execOnSession beh insert_cql
        ([CqlParam.str feature_name, CqlParam.blob (ser val)] ++ fixed_vals) sh with
    | (.error e, sh1) => (.error e, sh1)
    | (.ok _, sh1) => writeFeaturesLoop ser beh insert_cql fixed_vals rest sh1

/-- CassandraOnlineStore._write_rows: get the session, pick the 4-column
insert when created_ts is None (tombstone avoidance) and the 5-column one
otherwise, then upsert one row per feature. -/
def _write_rows {V : Type} (ser : V → Bytes) (beh : Behavior) (config : RepoConfig)
    (project : String) (table : FeatureView) (entity_key_bin : String)
    (features_vals : List (String × V)) (timestamp : Nat) (created_ts : Option Nat)
    (self : InstanceState) (sh : Shared) :
    Except StoreError Unit × InstanceState × Shared :=
  match _get_session config self with
  | .error e => (.error e, self, sh)
  | .ok (_session, self1) =>
    let keyspace := pyStr self1._keyspace
    let fqtable := _fq_table_name keyspace project table
    match created_ts with
    | none =>
      match _get_cql_statement config ("insert4") fqtable [] self1 sh with
      | .error e => (.error e, self1, sh)
      | .ok (insert_cql, self2, sh1) =>
        let fixed_vals := [CqlParam.str entity_key_bin, CqlParam.ts timestamp]
        let r := writeFeaturesLoop ser beh insert_cql fixed_vals features_vals sh1
        (r.1, self2, r.2)
    | some cts =>
      match _get_cql_statement config ("insert5") fqtable [] self1 sh with
      | .error e => (.error e, self1, sh)
      | .ok (insert_cql, self2, sh1) =>
        let fixed_vals :=
          [CqlParam.str entity_key_bin, CqlParam.ts timestamp, CqlParam.ts cts]
        let r := writeFeaturesLoop ser beh insert_cql fixed_vals features_vals sh1
        (r.1, self2, r.2)

/-- One quadruplet of online_write_batch's data list. -/
structure WriteDatum (K V : Type) where
  entity_key : K
  values : List (String × V)
  timestamp : Nat
  created_ts : Option Nat

/-- The outer loop of online_write_batch: write each entry's rows, then call
the progress callback with 1 when one was supplied. -/
def writeBatchLoop {K V : Type} (serEK : K → String) (ser : V → Bytes)
    (beh : Behavior) (config : RepoConfig) (project : String) (table : FeatureView)
    (progress : Option Unit) :
    List (WriteDatum K V) → InstanceState → Shared →
    Except StoreError Unit × InstanceState × Shared
  | [], self, sh => (.ok (), self, sh)
  | d :: rest, self, sh =>
    let entity_key_bin := serEK d.entity_key
    match _write_rows ser beh config project table entity_key_bin d.values
        d.timestamp d.created_ts self sh with
    | (.error e, self1, sh1) => (.error e, self1, sh1)
    | (.ok _, self1, sh1) =>
      let sh2 :=
        match progress with
        | some _ => { sh1 with events := sh1.events ++ [Event.progressEvt 1] }
        | none => sh1
      writeBatchLoop serEK ser beh config project table progress rest self1 sh2

/-- CassandraOnlineStore.online_write_batch.  serEK is the external
serialize_entity_key(...).hex() codec, ser the protobuf value serializer. -/
def online_write_batch {K V : Type} (serEK : K → String) (ser : V → Bytes)
    (beh : Behavior) (config : RepoConfig) (table : FeatureView)
    (data : List (WriteDatum K V)) (progress : Option Unit)
    (self : InstanceState) (sh : Shared) :
    Except StoreError Unit × InstanceState × Shared :=
  let project := config.project
  writeBatchLoop serEK ser beh config project table progress data self sh

/-- CassandraOnlineStore._read_rows_by_entity_key. -/
def _read_rows_by_entity_key (beh : Behavior) (config : RepoConfig)
    (project : String) (table : FeatureView) (entity_key_bin : String)
    (proj : Option (List String)) (self : InstanceState) (sh : Shared) :
    Except StoreError (List DbRow) × InstanceState × Shared :=
  match _get_session config self with
  | .error e => (.error e, self, sh)
  | .ok (_session, self1) =>
    let keyspace := pyStr self1._keyspace
    let fqtable := _fq_table_name keyspace project table
    let columns :=
      match proj with
      | none => "*"
      | some l => String.intercalate (", ") l
    match _get_cql_statement config ("select") fqtable [(("columns"), columns)] self1 sh with
    | .error e => (.error e, self1, sh)
    | .ok (select_cql, self2, sh1) =>
      let r := execOnSession beh select_cql [CqlParam.str entity_key_bin] sh1
      (r.1, self2, r.2)

/-- Does a returned row pass the requested-features filter
(requested_features is None or feature_name in requested_features)? -/
def nameRequested (requested_features : Option (List String)) (fname : String) :
    Bool :=
  match requested_features with
  | none => true
  | some names => names.contains fname

/-- Python dict assignment d[k] = v on an insertion-ordered dictionary. -/
def dictSet {α : Type} (d : List (String × α)) (k : String) (v : α) :
    List (String × α) :=
  match d with
  | [] => [(k, v)]
  | (k1, v1) :: rest => if k1 == k then (k, v) :: rest else (k1, v1) :: dictSet rest k v

/-- The inner loop of online_read over the returned feature rows: build the
res dict and keep the event_ts of the last matching row. -/
def processFeatureRows {V : Type} (par : Bytes → V)
    (requested_features : Option (List String)) :
    List DbRow → List (String × V) → Option Nat → List (String × V) × Option Nat
  | [], res, res_ts => (res, res_ts)
  | row :: rest, res, res_ts =>
    if nameRequested requested_features row.feature_name then
      processFeatureRows par requested_features rest
        (dictSet res row.feature_name (par row.value)) (some row.event_ts)
    else
      processFeatureRows par requested_features rest res res_ts

/-- Result entries of online_read. -/
abbrev ReadResult (V : Type) := Option Nat × Option (List (String × V))

/-- The per-entity-key loop of online_read. -/
def readLoop {K V : Type} (serEK : K → String) (par : Bytes → V) (beh : Behavior)
    (config : RepoConfig) (project : String) (table : FeatureView)
    (requested_features : Option (List String)) :
    List K → List (ReadResult V) → InstanceState → Shared →
    Except StoreError (List (ReadResult V)) × InstanceState × Shared
  | [], result, self, sh => (.ok result, self, sh)
  | entity_key :: rest, result, self, sh =>
    let entity_key_bin := serEK entity_key
    match _read_rows_by_entity_key beh config project table entity_key_bin
        (some [("feature_name"), ("value"), ("event_ts")]) self sh with
    | (.error e, self1, sh1) => (.error e, self1, sh1)
    | (.ok feature_rows, self1, sh1) =>
      let rt := processFeatureRows par requested_features feature_rows [] none
      let pair : ReadResult V :=
        if rt.1.isEmpty then (none, none) else (rt.2, some rt.1)
      readLoop serEK par beh config project table requested_features rest
        (result ++ [pair]) self1 sh1

/-- CassandraOnlineStore.online_read.  par is the external protobuf
ParseFromString decoder. -/
def online_read {K V : Type} (serEK : K → String) (par : Bytes → V)
    (beh : Behavior) (config : RepoConfig) (table : FeatureView)
    (entity_keys : List K) (requested_features : Option (List String))
    (self : InstanceState) (sh : Shared) :
    Except StoreError (List (ReadResult V)) × InstanceState × Shared :=
  let project := config.project
  readLoop serEK par beh config project table requested_features entity_keys []
    self sh

/-- Well-formedness of one cache entry: the handle carries the text the
entry's key stands for. -/
def entryWF (k : List String) (h : Handle) : Prop :=
  (∀ ft, k = ["insert4", ft] → h.text = .insert4 ft) ∧
  (∀ ft, k = ["insert5", ft] → h.text = .insert5 ft) ∧
  (∀ ft enc, k = ["select", ft, enc] → ∃ cols, h.text = .selectT cols ft)

/-- Well-formedness of the shared prepared-statement cache. -/
def CacheWF (sh : Shared) : Prop :=
  ∀ k h, (k, h) ∈ sh.prepared_statements → entryWF k h

/-- Events appended by _get_cql_statement are prepare events only. -/
def prepOnly (new : List Event) : Prop :=
  ∀ e ∈ new, ∃ t, e = Event.prepareEvt t

/-! Concrete fixtures used by the witnesses. -/

def sampleCluster : Cluster := ⟨some ["h1"], some 9042, none, none⟩

def sampleSession : Session := ⟨sampleCluster, some "ks"⟩

def sampleInstance : InstanceState := ⟨some sampleCluster, some sampleSession, some "ks"⟩

def sampleConfig : CassandraOnlineStoreConfig :=
  ⟨some ["h1"], none, none, some "ks", none, none⟩

def emptyShared : Shared := ⟨[], 0, [], []⟩

/-- The insert template _write_rows selects for a given created_ts:
the 4-column one when it is absent, the 5-column one when present. -/
def insertTextFor (ft : String) : Option Nat → CqlText
  | none => .insert4 ft
  | some _ => .insert5 ft

/-- The fixed_vals list _write_rows binds for a given created_ts. -/
def fixedValsFor (ekbin : String) (ts : Nat) : Option Nat → List CqlParam
  | none => [CqlParam.str ekbin, CqlParam.ts ts]
  | some c => [CqlParam.str ekbin, CqlParam.ts ts, CqlParam.ts c]

/-- The cumulative database effect of one _write_rows call: one upsert per
(feature name, serialized value) pair, left to right. -/
def applyWritesBytes (ft ek : String) (t : Nat) (cts : Option Nat) :
    List (String × Bytes) → Db → Db
  | [], db => db
  | (f, b) :: rest, db =>
    applyWritesBytes ft ek t cts rest (applyInsertCql ft f b ek t cts db)

/-- Is an event a progress-callback invocation? -/
def isProgressEvt : Event → Bool
  | .progressEvt _ => true
  | _ => false

/-- Number of progress-callback invocations recorded in a trace. -/
def countProgress (l : List Event) : Nat := (l.filter isProgressEvt).length

/-- Two rows with the same primary key (table, partition key, clustering key). -/
def sameKey (r s : DbRow) : Prop :=
  r.table = s.table ∧ r.entity_key = s.entity_key ∧ r.feature_name = s.feature_name

/-- Database well-formedness: at most one row per primary key (an invariant
of every reachable store content, maintained by the upsert semantics). -/
def DbWF (db : Db) : Prop := db.Pairwise (fun r s => ¬ sameKey r s)

/-- The rows of db with the given primary key. -/
def keyFilter (ft ek f : String) (db : Db) : List DbRow :=
  db.filter (fun r => r.table == ft && r.entity_key == ek && r.feature_name == f)

/-- A behavior in which every execution fails. -/
def failBeh : Behavior := ⟨fun _ _ _ => some (.storeOp ("boom"))⟩

/-- Concrete value codec used by the witnesses. -/
def natSer : Nat → Bytes := fun n => [n]

/-- Concrete value decoder used by the witnesses. -/
def natPar : Bytes → Nat := fun b => b.headD 0

/-- Shared state left by the failing concrete _write_rows of the C8 witness:
the insert4 statement was prepared and cached, its (failing) execution was
attempted, and no row was written. -/
def badShared : Shared :=
  ⟨[(["insert4", _fq_table_name ("ks") ("p") ⟨"fv"⟩],
      ⟨0, .insert4 (_fq_table_name ("ks") ("p") ⟨"fv"⟩)⟩)], 1, [],
    [Event.prepareEvt (.insert4 (_fq_table_name ("ks") ("p") ⟨"fv"⟩)),
     Event.execEvt (.prepared ⟨0, .insert4 (_fq_table_name ("ks") ("p") ⟨"fv"⟩)⟩)
       [CqlParam.str ("f"), CqlParam.blob [2], CqlParam.str ("ek"), CqlParam.ts 7]]⟩

/-- The rows of a returned row list passing the requested-features filter. -/
def matchingRows (req : Option (List String)) (rows : List DbRow) : List DbRow :=
  rows.filter (fun r => nameRequested req r.feature_name)

/-- The per-key result online_read computes from the returned rows. -/
def readResultOfRows {V : Type} (par : Bytes → V) (req : Option (List String))
    (rows : List DbRow) : ReadResult V :=
  let rt := processFeatureRows par req rows [] none
  if rt.1.isEmpty then (none, none) else (rt.2, some rt.1)

/-! Basic lemmas about the session fast path and the statement cache. -/

/-- With a cached session and a config of the expected type, _get_session is
the identity fast path. -/
theorem getSession_cached (c : CassandraOnlineStoreConfig) (p : String)
    (self : InstanceState) (sess : Session) (hsess : self._session = some sess) :
    _get_session ⟨.cassandra c, p⟩ self = .ok (sess, self) := by
  simp [_get_session, hsess]

theorem cacheKeyOf_nil (op ft : String) : cacheKeyOf op ft [] = [op, ft] := rfl

theorem cacheKeyOf_single (op ft k v : String) :
    cacheKeyOf op ft [(k, v)] = [op, ft, v ++ "@" ++ k] := rfl

/-- Association-list lookup skips a prefix that does not contain the key. -/
theorem lookup_append_right {β : Type} (l l2 : List (List String × β))
    (k : List String) (hk : ∀ h, (k, h) ∉ l) :
    (l ++ l2).lookup k = l2.lookup k := by
  induction l with
  | nil => rfl
  | cons x xs ih =>
    have hne : ¬(k == x.1) = true := by
      intro hbeq
      exact hk x.2 (by simp [List.mem_cons, Prod.ext_iff, eq_of_beq hbeq])
    simp only [List.cons_append, List.lookup, hne]
    exact ih (fun h hmem => hk h (List.mem_cons_of_mem _ hmem))

/-- A hit in a well-formed cache: membership of the looked-up pair. -/
theorem lookup_mem {β : Type} (l : List (List String × β)) (k : List String)
    (h : β) (hl : l.lookup k = some h) : (k, h) ∈ l := by
  induction l with
  | nil => simp [List.lookup] at hl
  | cons x xs ih =>
    by_cases hbeq : (k == x.1) = true
    · simp only [List.lookup, hbeq] at hl
      cases hl
      have hke : k = x.1 := eq_of_beq hbeq
      have hx : (k, x.2) = x := by
        rw [hke]
      rw [hx]
      exact List.mem_cons_self x xs
    · simp only [List.lookup, hbeq] at hl
      exact List.mem_cons_of_mem _ (ih hl)

/-- A key absent from the cache looks up to none. -/
theorem lookup_eq_none_of_notMem {β : Type} (l : List (List String × β))
    (k : List String) (hk : ∀ h, (k, h) ∉ l) : l.lookup k = none := by
  cases hl : l.lookup k with
  | none => rfl
  | some h => exact absurd (lookup_mem l k h hl) (hk h)

/-- A key that looks up to none is absent. -/
theorem notMem_of_lookup_eq_none {β : Type} (l : List (List String × β))
    (k : List String) (hl : l.lookup k = none) : ∀ h, (k, h) ∉ l := by
  induction l with
  | nil => simp
  | cons x xs ih =>
    intro h hmem
    by_cases hbeq : (k == x.1) = true
    · simp only [List.lookup, hbeq] at hl
      exact Option.noConfusion hl
    · simp only [List.lookup, hbeq] at hl
      rcases List.mem_cons.mp hmem with heq | hmem2
      · exact hbeq (beq_iff_eq.mpr (congrArg Prod.fst heq))
      · exact ih hl h hmem2

/-- Lookup of the key of a just-appended entry. -/
theorem lookup_append_singleton {β : Type} (l : List (List String × β))
    (k : List String) (h : β) (hl : l.lookup k = none) :
    (l ++ [(k, h)]).lookup k = some h := by
  rw [lookup_append_right l [(k, h)] k (notMem_of_lookup_eq_none l k hl)]
  simp [List.lookup]

/-- Specification of _get_cql_statement for the insert4 operation under a
cached session and a well-formed cache. -/
theorem getCql_insert4_spec (c : CassandraOnlineStoreConfig) (p ft : String)
    (self : InstanceState) (sh : Shared) (sess : Session)
    (hsess : self._session = some sess) (hwf : CacheWF sh) :
    ∃ h sh', _get_cql_statement ⟨.cassandra c, p⟩ ("insert4") ft [] self sh =
        .ok (.prepared h, self, sh') ∧
      h.text = .insert4 ft ∧ sh'.db = sh.db ∧
      sh'.prepared_statements.lookup ["insert4", ft] = some h ∧ CacheWF sh' ∧
      ∃ new, sh'.events = sh.events ++ new ∧ prepOnly new := by
  unfold _get_cql_statement
  rw [getSession_cached c p self sess hsess]
  simp only [CQL_TEMPLATE_MAP, if_pos rfl, cacheKeyOf_nil]
  cases hlk : sh.prepared_statements.lookup ["insert4", ft] with
  | some handle =>
    refine ⟨handle, sh, rfl, ?_, rfl, hlk, hwf, [], by simp, by simp [prepOnly]⟩
    exact (hwf _ _ (lookup_mem _ _ _ hlk)).1 ft rfl
  | none =>
    refine ⟨⟨sh.prepareSeq, .insert4 ft⟩, _, rfl, rfl, rfl,
      lookup_append_singleton _ _ _ hlk, ?_, [Event.prepareEvt (.insert4 ft)], rfl, ?_⟩
    · intro k h hmem
      rcases List.mem_append.mp hmem with hold | hnew
      · exact hwf k h hold
      · have hkh : k = ["insert4", ft] ∧ h = ⟨sh.prepareSeq, .insert4 ft⟩ := by
          simpa [Prod.ext_iff] using hnew
        refine ⟨?_, ?_, ?_⟩
        · intro ft2 hk2
          rw [hkh.1] at hk2
          simp only [List.cons.injEq] at hk2
          rw [hkh.2, ← hk2.2.1]
        · intro ft2 hk2
          rw [hkh.1] at hk2
          simp at hk2
        · intro ft2 enc hk2
          rw [hkh.1] at hk2
          simp at hk2
    · intro e he
      simp only [List.mem_singleton] at he
      exact ⟨_, he⟩

/-- Specification of _get_cql_statement for the insert5 operation. -/
theorem getCql_insert5_spec (c : CassandraOnlineStoreConfig) (p ft : String)
    (self : InstanceState) (sh : Shared) (sess : Session)
    (hsess : self._session = some sess) (hwf : CacheWF sh) :
    ∃ h sh', _get_cql_statement ⟨.cassandra c, p⟩ ("insert5") ft [] self sh =
        .ok (.prepared h, self, sh') ∧
      h.text = .insert5 ft ∧ sh'.db = sh.db ∧
      sh'.prepared_statements.lookup ["insert5", ft] = some h ∧ CacheWF sh' ∧
      ∃ new, sh'.events = sh.events ++ new ∧ prepOnly new := by
  unfold _get_cql_statement
  rw [getSession_cached c p self sess hsess]
  simp only [CQL_TEMPLATE_MAP, reduceIte]
  simp only [cacheKeyOf_nil]
  cases hlk : sh.prepared_statements.lookup ["insert5", ft] with
  | some handle =>
    refine ⟨handle, sh, rfl, ?_, rfl, hlk, hwf, [], by simp, by simp [prepOnly]⟩
    exact (hwf _ _ (lookup_mem _ _ _ hlk)).2.1 ft rfl
  | none =>
    refine ⟨⟨sh.prepareSeq, .insert5 ft⟩, _, rfl, rfl, rfl,
      lookup_append_singleton _ _ _ hlk, ?_, [Event.prepareEvt (.insert5 ft)], rfl, ?_⟩
    · intro k h hmem
      rcases List.mem_append.mp hmem with hold | hnew
      · exact hwf k h hold
      · have hkh : k = ["insert5", ft] ∧ h = ⟨sh.prepareSeq, .insert5 ft⟩ := by
          simpa [Prod.ext_iff] using hnew
        refine ⟨?_, ?_, ?_⟩
        · intro ft2 hk2
          rw [hkh.1] at hk2
          simp at hk2
        · intro ft2 hk2
          rw [hkh.1] at hk2
          simp only [List.cons.injEq] at hk2
          rw [hkh.2, ← hk2.2.1]
        · intro ft2 enc hk2
          rw [hkh.1] at hk2
          simp at hk2
    · intro e he
      simp only [List.mem_singleton] at he
      exact ⟨_, he⟩

/-- Specification of _get_cql_statement for the select operation. -/
theorem getCql_select_spec (c : CassandraOnlineStoreConfig) (p ft cols : String)
    (self : InstanceState) (sh : Shared) (sess : Session)
    (hsess : self._session = some sess) (hwf : CacheWF sh) :
    ∃ h sh' cols2, _get_cql_statement ⟨.cassandra c, p⟩ ("select") ft
        [(("columns"), cols)] self sh = .ok (.prepared h, self, sh') ∧
      h.text = .selectT cols2 ft ∧ sh'.db = sh.db ∧
      sh'.prepared_statements.lookup ["select", ft, cols ++ "@" ++ "columns"] = some h ∧
      CacheWF sh' ∧
      ∃ new, sh'.events = sh.events ++ new ∧ prepOnly new := by
  unfold _get_cql_statement
  rw [getSession_cached c p self sess hsess]
  simp only [CQL_TEMPLATE_MAP, reduceIte]
  simp only [cacheKeyOf_single]
  cases hlk : sh.prepared_statements.lookup ["select", ft, cols ++ "@" ++ "columns"] with
  | some handle =>
    obtain ⟨cols2, hc2⟩ :=
      (hwf _ _ (lookup_mem _ _ _ hlk)).2.2 ft (cols ++ "@" ++ "columns") rfl
    exact ⟨handle, sh, cols2, rfl, hc2, rfl, hlk, hwf, [], by simp, by simp [prepOnly]⟩
  | none =>
    refine ⟨⟨sh.prepareSeq, .selectT (([(("columns"), cols)].lookup ("columns")).getD ("")) ft⟩,
      _, _, rfl, rfl, rfl, lookup_append_singleton _ _ _ hlk, ?_, _, rfl, ?_⟩
    · intro k h hmem
      rcases List.mem_append.mp hmem with hold | hnew
      · exact hwf k h hold
      · have hkh : k = ["select", ft, cols ++ "@" ++ "columns"] ∧
            h = ⟨sh.prepareSeq,
              .selectT (([(("columns"), cols)].lookup ("columns")).getD ("")) ft⟩ := by
          simpa [Prod.ext_iff] using hnew
        refine ⟨?_, ?_, ?_⟩
        · intro ft2 hk2
          rw [hkh.1] at hk2
          simp at hk2
        · intro ft2 hk2
          rw [hkh.1] at hk2
          simp at hk2
        · intro ft2 enc hk2
          rw [hkh.1] at hk2
          simp only [List.cons.injEq] at hk2
          exact ⟨_, by rw [hkh.2, ← hk2.2.1]⟩
    · intro e he
      simp only [List.mem_singleton] at he
      exact ⟨_, he⟩

/-- If a getCqlStatement call returned a prepared handle, that handle is
cached under the call's cache key in the resulting shared state. -/
theorem getCql_result_lookup (c : CassandraOnlineStoreConfig) (p op ft : String)
    (kwargs : List (String × String)) (self self1 : InstanceState) (sh sh' : Shared)
    (sess : Session) (h : Handle)
    (hsess : self._session = some sess)
    (hop : op = "insert4" ∨ op = "insert5" ∨ op = "select")
    (hres : _get_cql_statement ⟨.cassandra c, p⟩ op ft kwargs self sh =
      .ok (.prepared h, self1, sh')) :
    sh'.prepared_statements.lookup (cacheKeyOf op ft kwargs) = some h := by
  rcases hop with hop | hop | hop
  · subst hop
    simp only [_get_cql_statement, getSession_cached c p self sess hsess,
      CQL_TEMPLATE_MAP, String.reduceEq, reduceIte] at hres
    cases hlk : List.lookup (cacheKeyOf ("insert4") ft kwargs) sh.prepared_statements with
    | some handle =>
      rw [hlk] at hres
      simp only [Except.ok.injEq, Prod.mk.injEq, CqlStatement.prepared.injEq] at hres
      rw [← hres.2.2, ← hres.1]
      exact hlk
    | none =>
      rw [hlk] at hres
      simp only [Except.ok.injEq, Prod.mk.injEq, CqlStatement.prepared.injEq] at hres
      rw [← hres.2.2, ← hres.1]
      exact lookup_append_singleton _ _ _ hlk
  · subst hop
    simp only [_get_cql_statement, getSession_cached c p self sess hsess,
      CQL_TEMPLATE_MAP, String.reduceEq, reduceIte] at hres
    cases hlk : List.lookup (cacheKeyOf ("insert5") ft kwargs) sh.prepared_statements with
    | some handle =>
      rw [hlk] at hres
      simp only [Except.ok.injEq, Prod.mk.injEq, CqlStatement.prepared.injEq] at hres
      rw [← hres.2.2, ← hres.1]
      exact hlk
    | none =>
      rw [hlk] at hres
      simp only [Except.ok.injEq, Prod.mk.injEq, CqlStatement.prepared.injEq] at hres
      rw [← hres.2.2, ← hres.1]
      exact lookup_append_singleton _ _ _ hlk
  · subst hop
    simp only [_get_cql_statement, getSession_cached c p self sess hsess,
      CQL_TEMPLATE_MAP, String.reduceEq, reduceIte] at hres
    cases hlk : List.lookup (cacheKeyOf ("select") ft kwargs) sh.prepared_statements with
    | some handle =>
      rw [hlk] at hres
      simp only [Except.ok.injEq, Prod.mk.injEq, CqlStatement.prepared.injEq] at hres
      rw [← hres.2.2, ← hres.1]
      exact hlk
    | none =>
      rw [hlk] at hres
      simp only [Except.ok.injEq, Prod.mk.injEq, CqlStatement.prepared.injEq] at hres
      rw [← hres.2.2, ← hres.1]
      exact lookup_append_singleton _ _ _ hlk

/-- A cache hit: getCqlStatement returns the cached handle and leaves both
the instance and the shared state exactly as they were. -/
theorem getCql_hit (c : CassandraOnlineStoreConfig) (p op ft : String)
    (kwargs : List (String × String)) (self : InstanceState) (sh : Shared)
    (sess : Session) (h : Handle)
    (hsess : self._session = some sess)
    (hop : op = "insert4" ∨ op = "insert5" ∨ op = "select")
    (hhit : sh.prepared_statements.lookup (cacheKeyOf op ft kwargs) = some h) :
    _get_cql_statement ⟨.cassandra c, p⟩ op ft kwargs self sh =
      .ok (.prepared h, self, sh) := by
  rcases hop with hop | hop | hop <;> subst hop <;>
    simp [_get_cql_statement, getSession_cached c p self sess hsess,
      CQL_TEMPLATE_MAP, String.reduceEq, reduceIte, hhit]

/-- C4: once a session is cached, any call of getSession with a config of the
expected type returns that same session and leaves the instance untouched —
no validation and no cluster/session construction is re-run (the inner config
c is arbitrary, including invalid ones) — while the config-type check is
still performed (second conjunct). -/
theorem C4_session_invariant (c : CassandraOnlineStoreConfig) (p p2 : String)
    (self : InstanceState) (sess : Session) (hsess : self._session = some sess) :
    _get_session ⟨.cassandra c, p⟩ self = .ok (sess, self) ∧
    _get_session ⟨.otherStore, p2⟩ self =
      .error (.invalidConfig E_CASSANDRA_UNEXPECTED_CONFIGURATION_CLASS) :=
  ⟨getSession_cached c p self sess hsess, rfl⟩

/-- Witness for C4 at a concrete instance with a cached session and an
(invalid: both hosts and bundle set) inner config. -/
theorem C4_session_invariant_witness :
    sampleInstance._session = some sampleSession ∧
    (_get_session ⟨.cassandra ⟨some ["h1"], some ("b"), none, none, none, none⟩, "p"⟩
        sampleInstance = .ok (sampleSession, sampleInstance) ∧
     _get_session ⟨.otherStore, "p"⟩ sampleInstance =
       .error (.invalidConfig E_CASSANDRA_UNEXPECTED_CONFIGURATION_CLASS)) :=
  ⟨rfl, C4_session_invariant ⟨some ["h1"], some ("b"), none, none, none, none⟩
    ("p") ("p") sampleInstance sampleSession rfl⟩

/-- C5: resolving an uncached (operation, table, sorted kwargs) tuple
prepares and stores the handle (exactly one prepare event is appended), and
resolving it again is a pure cache hit: same handle, completely unchanged
shared state (hence no second prepare call). -/
theorem C5_statement_cache_idempotent (c : CassandraOnlineStoreConfig)
    (p op ft : String) (kwargs : List (String × String)) (self : InstanceState)
    (sh : Shared) (sess : Session)
    (hsess : self._session = some sess)
    (hop : op = "insert4" ∨ op = "insert5" ∨ op = "select")
    (hmiss : sh.prepared_statements.lookup (cacheKeyOf op ft kwargs) = none) :
    ∃ h sh1,
      _get_cql_statement ⟨.cassandra c, p⟩ op ft kwargs self sh =
        .ok (.prepared h, self, sh1) ∧
      sh1.events = sh.events ++ [Event.prepareEvt h.text] ∧
      sh1.prepared_statements = sh.prepared_statements ++ [(cacheKeyOf op ft kwargs, h)] ∧
      _get_cql_statement ⟨.cassandra c, p⟩ op ft kwargs self sh1 =
        .ok (.prepared h, self, sh1) := by
  rcases hop with hop | hop | hop <;> subst hop
  · refine ⟨⟨sh.prepareSeq, .insert4 ft⟩,
      { sh with
        prepareSeq := sh.prepareSeq + 1
        events := sh.events ++ [Event.prepareEvt (CqlText.insert4 ft)]
        prepared_statements := sh.prepared_statements ++
          [(cacheKeyOf ("insert4") ft kwargs, ⟨sh.prepareSeq, CqlText.insert4 ft⟩)] },
      ?_, rfl, rfl, ?_⟩
    · simp [_get_cql_statement, getSession_cached c p self sess hsess,
        CQL_TEMPLATE_MAP, String.reduceEq, reduceIte, hmiss]
    · exact getCql_hit c p _ ft kwargs self _ sess _ hsess (Or.inl rfl)
        (lookup_append_singleton _ _ _ hmiss)
  · refine ⟨⟨sh.prepareSeq, .insert5 ft⟩,
      { sh with
        prepareSeq := sh.prepareSeq + 1
        events := sh.events ++ [Event.prepareEvt (CqlText.insert5 ft)]
        prepared_statements := sh.prepared_statements ++
          [(cacheKeyOf ("insert5") ft kwargs, ⟨sh.prepareSeq, CqlText.insert5 ft⟩)] },
      ?_, rfl, rfl, ?_⟩
    · simp [_get_cql_statement, getSession_cached c p self sess hsess,
        CQL_TEMPLATE_MAP, String.reduceEq, reduceIte, hmiss]
    · exact getCql_hit c p _ ft kwargs self _ sess _ hsess (Or.inr (Or.inl rfl))
        (lookup_append_singleton _ _ _ hmiss)
  · refine ⟨⟨sh.prepareSeq, .selectT ((kwargs.lookup ("columns")).getD ("")) ft⟩,
      { sh with
        prepareSeq := sh.prepareSeq + 1
        events := sh.events ++
          [Event.prepareEvt (CqlText.selectT ((kwargs.lookup ("columns")).getD ("")) ft)]
        prepared_statements := sh.prepared_statements ++
          [(cacheKeyOf ("select") ft kwargs,
            ⟨sh.prepareSeq, CqlText.selectT ((kwargs.lookup ("columns")).getD ("")) ft⟩)] },
      ?_, rfl, rfl, ?_⟩
    · simp [_get_cql_statement, getSession_cached c p self sess hsess,
        CQL_TEMPLATE_MAP, String.reduceEq, reduceIte, hmiss]
    · exact getCql_hit c p _ ft kwargs self _ sess _ hsess (Or.inr (Or.inr rfl))
        (lookup_append_singleton _ _ _ hmiss)

/-- Witness for C5 on a fresh cache. -/
theorem C5_statement_cache_idempotent_witness :
    sampleInstance._session = some sampleSession ∧
    (("insert4" : String) = "insert4" ∨ ("insert4" : String) = "insert5" ∨
      ("insert4" : String) = "select") ∧
    emptyShared.prepared_statements.lookup (cacheKeyOf ("insert4") ("t") []) = none ∧
    (∃ h sh1,
      _get_cql_statement ⟨.cassandra sampleConfig, "p"⟩ ("insert4") ("t") []
          sampleInstance emptyShared = .ok (.prepared h, sampleInstance, sh1) ∧
      sh1.events = emptyShared.events ++ [Event.prepareEvt h.text] ∧
      sh1.prepared_statements =
        emptyShared.prepared_statements ++ [(cacheKeyOf ("insert4") ("t") [], h)] ∧
      _get_cql_statement ⟨.cassandra sampleConfig, "p"⟩ ("insert4") ("t") []
          sampleInstance sh1 = .ok (.prepared h, sampleInstance, sh1)) :=
  ⟨rfl, Or.inl rfl, rfl,
    C5_statement_cache_idempotent sampleConfig ("p") ("insert4") ("t") []
      sampleInstance emptyShared sampleSession rfl (Or.inl rfl) rfl⟩

/-- C6 counterexample: a config of the expected type with both hosts and
secure_bundle_path set, but whose keyspace is unset, fails with the
not-configured error, not the misconfigured one. -/
theorem C6_counterexample :
    _get_session
        ⟨.cassandra ⟨some ["h1"], some ("bundle"), none, none, none, none⟩, "p"⟩
        ⟨none, none, none⟩ =
      .error (.invalidConfig E_CASSANDRA_NOT_CONFIGURED) ∧
    StoreError.invalidConfig E_CASSANDRA_NOT_CONFIGURED ≠
      StoreError.invalidConfig E_CASSANDRA_MISCONFIGURED := by
  exact ⟨rfl, by decide⟩

/-- C6 (amended): if both hosts and secure_bundle_path are set and truthy
(non-empty) and the keyspace is also set and truthy, getSession on an
instance with no cached session fails with the misconfigured error,
regardless of the auth fields and the port. -/
theorem C6_misconfigured (c : CassandraOnlineStoreConfig) (p : String)
    (self : InstanceState) (hsess : self._session = none)
    (hh : truthyList c.hosts = true) (hb : truthyStr c.secure_bundle_path = true)
    (hk : truthyStr c.keyspace = true) :
    _get_session ⟨.cassandra c, p⟩ self =
      .error (.invalidConfig E_CASSANDRA_MISCONFIGURED) := by
  simp [_get_session, hsess, hh, hb, hk]

/-- Witness for the amended C6. -/
theorem C6_misconfigured_witness :
    (⟨none, none, none⟩ : InstanceState)._session = none ∧
    truthyList (some ["h1"]) = true ∧ truthyStr (some ("bundle")) = true ∧
    truthyStr (some ("ks")) = true ∧
    _get_session
        ⟨.cassandra ⟨some ["h1"], some ("bundle"), none, some ("ks"), some ("u"), none⟩, "p"⟩
        ⟨none, none, none⟩ =
      .error (.invalidConfig E_CASSANDRA_MISCONFIGURED) :=
  ⟨rfl, rfl, rfl, rfl,
    C6_misconfigured ⟨some ["h1"], some ("bundle"), none, some ("ks"), some ("u"), none⟩
      ("p") ⟨none, none, none⟩ rfl rfl rfl rfl⟩

/-- C7 counterexample: a config of the expected type with exactly one of
username/password set, but with neither hosts nor bundle nor keyspace, fails
with the not-configured error, not the inconsistent-auth one. -/
theorem C7_counterexample :
    _get_session ⟨.cassandra ⟨none, none, none, none, some ("user"), none⟩, "p"⟩
        ⟨none, none, none⟩ =
      .error (.invalidConfig E_CASSANDRA_NOT_CONFIGURED) ∧
    StoreError.invalidConfig E_CASSANDRA_NOT_CONFIGURED ≠
      StoreError.invalidConfig E_CASSANDRA_INCONSISTENT_AUTH := by
  exact ⟨rfl, by decide⟩

/-- C7 (amended): if exactly one of username/password is set (is-None XOR)
and the config passes the earlier checks (hosts-or-bundle truthy, keyspace
truthy, not both hosts and bundle truthy), getSession on an instance with no
cached session fails with the inconsistent-auth error. -/
theorem C7_inconsistent_auth (c : CassandraOnlineStoreConfig) (p : String)
    (self : InstanceState) (hsess : self._session = none)
    (hdir : (truthyList c.hosts || truthyStr c.secure_bundle_path) = true)
    (hk : truthyStr c.keyspace = true)
    (hnotboth : (truthyList c.hosts && truthyStr c.secure_bundle_path) = false)
    (hxor : (c.username.isNone != c.password.isNone) = true) :
    _get_session ⟨.cassandra c, p⟩ self =
      .error (.invalidConfig E_CASSANDRA_INCONSISTENT_AUTH) := by
  simp [_get_session, hsess, hdir, hk, hnotboth, hxor]

/-- Witness for the amended C7. -/
theorem C7_inconsistent_auth_witness :
    (⟨none, none, none⟩ : InstanceState)._session = none ∧
    (truthyList (some ["h1"]) || truthyStr none) = true ∧
    truthyStr (some ("ks")) = true ∧
    (truthyList (some ["h1"]) && truthyStr none) = false ∧
    ((some ("u") : Option String).isNone != (none : Option String).isNone) = true ∧
    _get_session ⟨.cassandra ⟨some ["h1"], none, none, some ("ks"), some ("u"), none⟩, "p"⟩
        ⟨none, none, none⟩ =
      .error (.invalidConfig E_CASSANDRA_INCONSISTENT_AUTH) :=
  ⟨rfl, rfl, rfl, rfl, rfl,
    C7_inconsistent_auth ⟨some ["h1"], none, none, some ("ks"), some ("u"), none⟩
      ("p") ⟨none, none, none⟩ rfl rfl rfl rfl rfl⟩

/-- C10: the prepared-statement cache is process-shared (the class attribute
dict is mutated in place): after instance A resolved a prepared statement,
instance B resolving the same (operation, table, kwargs) key gets A's exact
handle back as a pure cache hit — B's instance state and the shared state are
untouched, so no new prepare call is issued. -/
theorem C10_cache_shared_across_instances (cA cB : CassandraOnlineStoreConfig)
    (pA pB op ft : String) (kwargs : List (String × String))
    (instA instB instA1 : InstanceState) (sh shA : Shared) (sessA sessB : Session)
    (h : Handle)
    (hA : instA._session = some sessA) (hB : instB._session = some sessB)
    (hop : op = "insert4" ∨ op = "insert5" ∨ op = "select")
    (hres : _get_cql_statement ⟨.cassandra cA, pA⟩ op ft kwargs instA sh =
      .ok (.prepared h, instA1, shA)) :
    _get_cql_statement ⟨.cassandra cB, pB⟩ op ft kwargs instB shA =
      .ok (.prepared h, instB, shA) :=
  getCql_hit cB pB op ft kwargs instB shA sessB h hB hop
    (getCql_result_lookup cA pA op ft kwargs instA instA1 sh shA sessA h hA hop hres)

/-- Witness for C10: two distinct concrete instances sharing one cache. -/
theorem C10_cache_shared_across_instances_witness :
    sampleInstance._session = some sampleSession ∧
    (⟨none, some sampleSession, some ("ks2")⟩ : InstanceState)._session =
      some sampleSession ∧
    (("insert4" : String) = "insert4" ∨ ("insert4" : String) = "insert5" ∨
      ("insert4" : String) = "select") ∧
    _get_cql_statement ⟨.cassandra sampleConfig, "p"⟩ ("insert4") ("t") []
        sampleInstance emptyShared =
      .ok (.prepared ⟨0, .insert4 ("t")⟩, sampleInstance,
        ⟨[(["insert4", "t"], ⟨0, .insert4 ("t")⟩)], 1, [],
          [Event.prepareEvt (.insert4 ("t"))]⟩) ∧
    _get_cql_statement ⟨.cassandra sampleConfig, "p"⟩ ("insert4") ("t") []
        (⟨none, some sampleSession, some ("ks2")⟩ : InstanceState)
        ⟨[(["insert4", "t"], ⟨0, .insert4 ("t")⟩)], 1, [],
          [Event.prepareEvt (.insert4 ("t"))]⟩ =
      .ok (.prepared ⟨0, .insert4 ("t")⟩,
        (⟨none, some sampleSession, some ("ks2")⟩ : InstanceState),
        ⟨[(["insert4", "t"], ⟨0, .insert4 ("t")⟩)], 1, [],
          [Event.prepareEvt (.insert4 ("t"))]⟩) :=
  ⟨rfl, rfl, Or.inl rfl, by rfl,
    C10_cache_shared_across_instances sampleConfig sampleConfig ("p") ("p")
      ("insert4") ("t") [] sampleInstance
      (⟨none, some sampleSession, some ("ks2")⟩ : InstanceState) sampleInstance
      emptyShared
      ⟨[(["insert4", "t"], ⟨0, .insert4 ("t")⟩)], 1, [],
        [Event.prepareEvt (.insert4 ("t"))]⟩
      sampleSession sampleSession ⟨0, .insert4 ("t")⟩ rfl rfl (Or.inl rfl) (by rfl)⟩

/-! Write-path lemmas. -/

/-- execOnSession records exactly one exec event and touches neither the
cache nor the prepare counter. -/
theorem execOnSession_shape (beh : Behavior) (stmt : CqlStatement)
    (params : List CqlParam) (sh : Shared) :
    (execOnSession beh stmt params sh).2.prepared_statements = sh.prepared_statements ∧
    (execOnSession beh stmt params sh).2.prepareSeq = sh.prepareSeq ∧
    (execOnSession beh stmt params sh).2.events =
      sh.events ++ [Event.execEvt stmt params] := by
  unfold execOnSession
  rcases sessionExecute beh stmt params sh.db with e | ⟨db1, rows⟩ <;> simp

/-- The feature loop appends only executions of its one statement, and never
touches the cache. -/
theorem writeFeaturesLoop_events {V : Type} (ser : V → Bytes) (beh : Behavior)
    (stmt : CqlStatement) (fixed : List CqlParam) (l : List (String × V)) :
    ∀ sh : Shared,
      (writeFeaturesLoop ser beh stmt fixed l sh).2.prepared_statements =
        sh.prepared_statements ∧
      ∃ new, (writeFeaturesLoop ser beh stmt fixed l sh).2.events = sh.events ++ new ∧
        ∀ e ∈ new, ∃ ps, e = Event.execEvt stmt ps := by
  induction l with
  | nil =>
    intro sh
    exact ⟨rfl, [], by simp [writeFeaturesLoop], by simp⟩
  | cons x rest ih =>
    intro sh
    obtain ⟨f, v⟩ := x
    have hsh := execOnSession_shape beh stmt
      ([CqlParam.str f, CqlParam.blob (ser v)] ++ fixed) sh
    simp only [writeFeaturesLoop]
    rcases hex : execOnSession beh stmt
        ([CqlParam.str f, CqlParam.blob (ser v)] ++ fixed) sh with ⟨res, sh1⟩
    rw [hex] at hsh
    cases res with
    | error e =>
      refine ⟨hsh.1,
        [Event.execEvt stmt ([CqlParam.str f, CqlParam.blob (ser v)] ++ fixed)],
        by rw [hsh.2.2], ?_⟩
      intro e2 he2
      simp only [List.mem_singleton] at he2
      exact ⟨_, he2⟩
    | ok rows =>
      obtain ⟨ihc, new2, ihe, ihall⟩ := ih sh1
      refine ⟨by rw [ihc, hsh.1],
        Event.execEvt stmt ([CqlParam.str f, CqlParam.blob (ser v)] ++ fixed) :: new2,
        ?_, ?_⟩
      · rw [ihe, hsh.2.2]
        simp
      · intro e2 he2
        rcases List.mem_cons.mp he2 with h0 | h0
        · exact ⟨_, h0⟩
        · exact ihall e2 h0

/-- C2: for every write entry, the write path executes only the 4-column
insert statement when the creation timestamp is absent, and only the 5-column
one when it is present: every execution event appended by _write_rows (under
any session behavior, so also on partial failure) carries the statement text
selected by created_ts, hence never the other template. -/
theorem C2_tombstone_avoidance {V : Type} (ser : V → Bytes) (beh : Behavior)
    (c : CassandraOnlineStoreConfig) (p project : String) (fv : FeatureView)
    (ekbin : String) (vals : List (String × V)) (ts : Nat) (cts : Option Nat)
    (self : InstanceState) (sh : Shared) (sess : Session)
    (hsess : self._session = some sess) (hwf : CacheWF sh) :
    ∃ new,
      (_write_rows ser beh ⟨.cassandra c, p⟩ project fv ekbin vals ts cts
          self sh).2.2.events = sh.events ++ new ∧
      ∀ stmt ps, Event.execEvt stmt ps ∈ new →
        stmtText stmt =
          insertTextFor (_fq_table_name (pyStr self._keyspace) project fv) cts := by
  cases cts with
  | none =>
    obtain ⟨h, sh1, hcall, htext, hdb1, hlk, hwf1, new1, hev1, hprep1⟩ :=
      getCql_insert4_spec c p (_fq_table_name (pyStr self._keyspace) project fv)
        self sh sess hsess hwf
    obtain ⟨hc2, new2, hev2, hall2⟩ := writeFeaturesLoop_events ser beh (.prepared h)
      [CqlParam.str ekbin, CqlParam.ts ts] vals sh1
    simp only [_write_rows, getSession_cached c p self sess hsess]
    rw [hcall]
    refine ⟨new1 ++ new2, ?_, ?_⟩
    · rw [hev2, hev1, List.append_assoc]
    · intro stmt ps hmem
      rcases List.mem_append.mp hmem with hm | hm
      · obtain ⟨t, ht⟩ := hprep1 _ hm
        exact Event.noConfusion ht
      · obtain ⟨ps2, hps⟩ := hall2 _ hm
        have hstmt : stmt = .prepared h := by
          cases hps
          rfl
        rw [hstmt, stmtText, htext, insertTextFor]
  | some cval =>
    obtain ⟨h, sh1, hcall, htext, hdb1, hlk, hwf1, new1, hev1, hprep1⟩ :=
      getCql_insert5_spec c p (_fq_table_name (pyStr self._keyspace) project fv)
        self sh sess hsess hwf
    obtain ⟨hc2, new2, hev2, hall2⟩ := writeFeaturesLoop_events ser beh (.prepared h)
      [CqlParam.str ekbin, CqlParam.ts ts, CqlParam.ts cval] vals sh1
    simp only [_write_rows, getSession_cached c p self sess hsess]
    rw [hcall]
    refine ⟨new1 ++ new2, ?_, ?_⟩
    · rw [hev2, hev1, List.append_assoc]
    · intro stmt ps hmem
      rcases List.mem_append.mp hmem with hm | hm
      · obtain ⟨t, ht⟩ := hprep1 _ hm
        exact Event.noConfusion ht
      · obtain ⟨ps2, hps⟩ := hall2 _ hm
        have hstmt : stmt = .prepared h := by
          cases hps
          rfl
        rw [hstmt, stmtText, htext, insertTextFor]

/-- Witness for C2 at a concrete write (created_ts absent). -/
theorem C2_tombstone_avoidance_witness :
    sampleInstance._session = some sampleSession ∧ CacheWF emptyShared ∧
    ∃ new,
      (_write_rows natSer failBeh ⟨.cassandra sampleConfig, "p"⟩ ("p") ⟨"fv"⟩ ("ek")
          [(("f"), 2)] 7 none sampleInstance emptyShared).2.2.events =
        emptyShared.events ++ new ∧
      ∀ stmt ps, Event.execEvt stmt ps ∈ new →
        stmtText stmt =
          insertTextFor (_fq_table_name (pyStr sampleInstance._keyspace) ("p") ⟨"fv"⟩) none :=
  ⟨rfl, fun k h hmem => absurd hmem (List.not_mem_nil _),
    C2_tombstone_avoidance natSer failBeh sampleConfig ("p") ("p") ⟨"fv"⟩ ("ek")
      [(("f"), 2)] 7 none sampleInstance emptyShared sampleSession rfl
      (fun k h hmem => absurd hmem (List.not_mem_nil _))⟩

/-- A state with the same cache as a well-formed-cache state is itself
well-formed. -/
theorem cacheWF_congr (sh sh' : Shared)
    (h : sh'.prepared_statements = sh.prepared_statements) (hwf : CacheWF sh) :
    CacheWF sh' := by
  intro k hh hmem
  rw [h] at hmem
  exact hwf k hh hmem

/-- With no injected failure, executing the insert selected for created_ts
upserts the one row and returns no result rows. -/
theorem sessionExecute_insert (ft f : String) (v : Bytes) (ek : String) (t : Nat)
    (cts : Option Nat) (stmt : CqlStatement)
    (hst : stmtText stmt = insertTextFor ft cts) (db : Db) :
    sessionExecute noFailures stmt
      ([CqlParam.str f, CqlParam.blob v] ++ fixedValsFor ek t cts) db =
      .ok (applyInsertCql ft f v ek t cts db, []) := by
  cases cts <;>
    simp [sessionExecute, noFailures, hst, insertTextFor, fixedValsFor]

/-- Happy path of the feature loop: all upserts are applied in order, the
trace grows by executions of the one statement, the cache is untouched. -/
theorem writeFeaturesLoop_ok {V : Type} (ser : V → Bytes) (stmt : CqlStatement)
    (ft ekbin : String) (ts : Nat) (cts : Option Nat)
    (hst : stmtText stmt = insertTextFor ft cts) (l : List (String × V)) :
    ∀ sh : Shared, ∃ sh',
      writeFeaturesLoop ser noFailures stmt (fixedValsFor ekbin ts cts) l sh =
        (.ok (), sh') ∧
      sh'.db =
        applyWritesBytes ft ekbin ts cts (l.map (fun fv => (fv.1, ser fv.2))) sh.db ∧
      sh'.prepared_statements = sh.prepared_statements ∧
      ∃ new, sh'.events = sh.events ++ new ∧
        ∀ e ∈ new, ∃ ps, e = Event.execEvt stmt ps := by
  induction l with
  | nil =>
    intro sh
    exact ⟨sh, rfl, rfl, rfl, [], by simp, by simp⟩
  | cons x rest ih =>
    intro sh
    obtain ⟨f, v⟩ := x
    have hexec : execOnSession noFailures stmt
        ([CqlParam.str f, CqlParam.blob (ser v)] ++ fixedValsFor ekbin ts cts) sh =
        (.ok [], { sh with
          db := applyInsertCql ft f (ser v) ekbin ts cts sh.db,
          events := sh.events ++ [Event.execEvt stmt
            ([CqlParam.str f, CqlParam.blob (ser v)] ++ fixedValsFor ekbin ts cts)] }) := by
      rw [execOnSession, sessionExecute_insert ft f (ser v) ekbin ts cts stmt hst]
    obtain ⟨sh', hloop, hdb, hcache, new2, hev, hall⟩ :=
      ih { sh with
        db := applyInsertCql ft f (ser v) ekbin ts cts sh.db,
        events := sh.events ++ [Event.execEvt stmt
          ([CqlParam.str f, CqlParam.blob (ser v)] ++ fixedValsFor ekbin ts cts)] }
    refine ⟨sh', ?_, ?_, hcache, Event.execEvt stmt
      ([CqlParam.str f, CqlParam.blob (ser v)] ++ fixedValsFor ekbin ts cts) :: new2,
      ?_, ?_⟩
    · rw [writeFeaturesLoop, hexec]
      exact hloop
    · rw [hdb]
      rfl
    · rw [hev]
      simp
    · intro e2 he2
      rcases List.mem_cons.mp he2 with h0 | h0
      · exact ⟨_, h0⟩
      · exact hall e2 h0

/-- Happy path of _write_rows under a cached session and well-formed cache:
it succeeds, leaves the instance untouched, applies exactly the per-feature
upserts to the database, preserves cache well-formedness, and appends no
progress event. -/
theorem write_rows_ok {V : Type} (ser : V → Bytes) (c : CassandraOnlineStoreConfig)
    (p project : String) (fv : FeatureView) (ekbin : String)
    (vals : List (String × V)) (ts : Nat) (cts : Option Nat)
    (self : InstanceState) (sh : Shared) (sess : Session)
    (hsess : self._session = some sess) (hwf : CacheWF sh) :
    ∃ sh',
      _write_rows ser noFailures ⟨.cassandra c, p⟩ project fv ekbin vals ts cts
        self sh = (.ok (), self, sh') ∧
      sh'.db = applyWritesBytes (_fq_table_name (pyStr self._keyspace) project fv)
        ekbin ts cts (vals.map (fun fv2 => (fv2.1, ser fv2.2))) sh.db ∧
      CacheWF sh' ∧
      ∃ new, sh'.events = sh.events ++ new ∧ ∀ e ∈ new, isProgressEvt e = false := by
  cases cts with
  | none =>
    obtain ⟨h, sh1, hcall, htext, hdb1, hlk, hwf1, new1, hev1, hprep1⟩ :=
      getCql_insert4_spec c p (_fq_table_name (pyStr self._keyspace) project fv)
        self sh sess hsess hwf
    obtain ⟨sh', hloop, hdb', hcache', new2, hev2, hexec2⟩ :=
      writeFeaturesLoop_ok ser (.prepared h)
        (_fq_table_name (pyStr self._keyspace) project fv) ekbin ts none
        (by rw [stmtText, htext, insertTextFor]) vals sh1
    refine ⟨sh', ?_, ?_, cacheWF_congr sh1 sh' hcache' hwf1, new1 ++ new2, ?_, ?_⟩
    · simp only [_write_rows, getSession_cached c p self sess hsess, hcall]
      have hloop2 : writeFeaturesLoop ser noFailures (.prepared h)
          [CqlParam.str ekbin, CqlParam.ts ts] vals sh1 = (.ok (), sh') := hloop
      simp [hloop2]
    · rw [hdb', hdb1]
    · rw [hev2, hev1, List.append_assoc]
    · intro e he
      rcases List.mem_append.mp he with hm | hm
      · obtain ⟨t, ht⟩ := hprep1 _ hm
        simp [ht, isProgressEvt]
      · obtain ⟨ps, hps⟩ := hexec2 _ hm
        simp [hps, isProgressEvt]
  | some cval =>
    obtain ⟨h, sh1, hcall, htext, hdb1, hlk, hwf1, new1, hev1, hprep1⟩ :=
      getCql_insert5_spec c p (_fq_table_name (pyStr self._keyspace) project fv)
        self sh sess hsess hwf
    obtain ⟨sh', hloop, hdb', hcache', new2, hev2, hexec2⟩ :=
      writeFeaturesLoop_ok ser (.prepared h)
        (_fq_table_name (pyStr self._keyspace) project fv) ekbin ts (some cval)
        (by rw [stmtText, htext, insertTextFor]) vals sh1
    refine ⟨sh', ?_, ?_, cacheWF_congr sh1 sh' hcache' hwf1, new1 ++ new2, ?_, ?_⟩
    · simp only [_write_rows, getSession_cached c p self sess hsess, hcall]
      have hloop2 : writeFeaturesLoop ser noFailures (.prepared h)
          [CqlParam.str ekbin, CqlParam.ts ts, CqlParam.ts cval] vals sh1 =
          (.ok (), sh') := hloop
      simp [hloop2]
    · rw [hdb', hdb1]
    · rw [hev2, hev1, List.append_assoc]
    · intro e he
      rcases List.mem_append.mp he with hm | hm
      · obtain ⟨t, ht⟩ := hprep1 _ hm
        simp [ht, isProgressEvt]
      · obtain ⟨ps, hps⟩ := hexec2 _ hm
        simp [hps, isProgressEvt]

/-- The batch loop over a list concatenation is the composition of the two
loops, with early exit on error. -/
theorem writeBatchLoop_append {K V : Type} (serEK : K → String) (ser : V → Bytes)
    (beh : Behavior) (config : RepoConfig) (project : String) (fv : FeatureView)
    (prog : Option Unit) (a b : List (WriteDatum K V)) :
    ∀ (self : InstanceState) (sh : Shared),
      writeBatchLoop serEK ser beh config project fv prog (a ++ b) self sh =
        match writeBatchLoop serEK ser beh config project fv prog a self sh with
        | (.error e, self1, sh1) => (.error e, self1, sh1)
        | (.ok _, self1, sh1) =>
          writeBatchLoop serEK ser beh config project fv prog b self1 sh1 := by
  induction a with
  | nil =>
    intro self sh
    rfl
  | cons d rest ih =>
    intro self sh
    simp only [List.cons_append, writeBatchLoop]
    rcases hw : _write_rows ser beh config project fv (serEK d.entity_key) d.values
        d.timestamp d.created_ts self sh with ⟨res, self1, sh1⟩
    cases res with
    | error e => rfl
    | ok u => exact ih self1 _

/-- C8: if the batch entries before entry N succeed and entry N's write
raises a store error, online_write_batch returns that same error together
with the state the failing entry left: the error propagates unchanged, the
entries after N are never attempted (the result does not depend on them),
and the row upserts of the entries before N are kept — there is no rollback,
retry or partial-failure bookkeeping. -/
theorem C8_batch_failure_propagation {K V : Type} (serEK : K → String)
    (ser : V → Bytes) (beh : Behavior) (config : RepoConfig) (fv : FeatureView)
    (pre post : List (WriteDatum K V)) (bad : WriteDatum K V) (prog : Option Unit)
    (self self1 self2 : InstanceState) (sh sh1 sh2 : Shared) (err : StoreError)
    (hpre : writeBatchLoop serEK ser beh config config.project fv prog pre self sh =
      (.ok (), self1, sh1))
    (hbad : _write_rows ser beh config config.project fv (serEK bad.entity_key)
      bad.values bad.timestamp bad.created_ts self1 sh1 = (.error err, self2, sh2)) :
    online_write_batch serEK ser beh config fv (pre ++ bad :: post) prog self sh =
      (.error err, self2, sh2) := by
  rw [online_write_batch,
    writeBatchLoop_append serEK ser beh config config.project fv prog pre
      (bad :: post) self sh, hpre]
  simp only [writeBatchLoop, hbad]

/-- Witness for C8: an empty prefix, a failing entry (every execution fails)
and a never-attempted second entry. -/
theorem C8_batch_failure_propagation_witness :
    writeBatchLoop (fun _ : Unit => "ek") natSer failBeh
        ⟨.cassandra sampleConfig, "p"⟩ ("p") ⟨"fv"⟩ (some ()) [] sampleInstance
        emptyShared = (.ok (), sampleInstance, emptyShared) ∧
    _write_rows natSer failBeh ⟨.cassandra sampleConfig, "p"⟩ ("p") ⟨"fv"⟩ ("ek")
        [(("f"), 2)] 7 none sampleInstance emptyShared =
      (.error (.storeOp ("boom")), sampleInstance, badShared) ∧
    online_write_batch (fun _ : Unit => "ek") natSer failBeh
        ⟨.cassandra sampleConfig, "p"⟩ ⟨"fv"⟩
        ([] ++ (⟨(), [(("f"), 2)], 7, none⟩ : WriteDatum Unit Nat) ::
          [⟨(), [(("g"), 3)], 8, none⟩]) (some ()) sampleInstance emptyShared =
      (.error (.storeOp ("boom")), sampleInstance, badShared) :=
  ⟨rfl, rfl,
    C8_batch_failure_propagation (fun _ : Unit => "ek") natSer failBeh
      ⟨.cassandra sampleConfig, "p"⟩ ⟨"fv"⟩ [] [⟨(), [(("g"), 3)], 8, none⟩]
      ⟨(), [(("f"), 2)], 7, none⟩ (some ()) sampleInstance sampleInstance
      sampleInstance emptyShared emptyShared badShared (.storeOp ("boom"))
      rfl rfl⟩

/-- Happy path of the batch loop with a progress callback: one event segment
per entry, each ending in a single progress(1) call that follows the entry's
own (progress-free) events. -/
theorem writeBatchLoop_progress_some {K V : Type} (serEK : K → String)
    (ser : V → Bytes) (c : CassandraOnlineStoreConfig) (p project : String)
    (fv : FeatureView) (data : List (WriteDatum K V)) :
    ∀ (self : InstanceState) (sh : Shared) (sess : Session),
      self._session = some sess → CacheWF sh →
      ∃ (segs : List (List Event)) (sh' : Shared),
        writeBatchLoop serEK ser noFailures ⟨.cassandra c, p⟩ project fv (some ())
          data self sh = (.ok (), self, sh') ∧
        CacheWF sh' ∧ segs.length = data.length ∧
        sh'.events = sh.events ++ segs.flatten ∧
        ∀ seg ∈ segs, ∃ pre2, seg = pre2 ++ [Event.progressEvt 1] ∧
          ∀ e ∈ pre2, isProgressEvt e = false := by
  induction data with
  | nil =>
    intro self sh sess hsess hwf
    exact ⟨[], sh, rfl, hwf, rfl, by simp, by simp⟩
  | cons d rest ih =>
    intro self sh sess hsess hwf
    obtain ⟨sh1, hwr, hdb, hwf1, new1, hev1, hnp1⟩ :=
      write_rows_ok ser c p project fv (serEK d.entity_key) d.values d.timestamp
        d.created_ts self sh sess hsess hwf
    obtain ⟨segs, sh', hloop, hwf', hlen, hev', hsegs⟩ :=
      ih self { sh1 with events := sh1.events ++ [Event.progressEvt 1] } sess hsess
        (cacheWF_congr sh1 _ rfl hwf1)
    refine ⟨(new1 ++ [Event.progressEvt 1]) :: segs, sh', ?_, hwf',
      by simp [hlen], ?_, ?_⟩
    · simp only [writeBatchLoop, hwr]
      exact hloop
    · rw [hev']
      simp [hev1, List.append_assoc]
    · intro seg hseg
      rcases List.mem_cons.mp hseg with h0 | h0
      · exact ⟨new1, h0, hnp1⟩
      · exact hsegs seg h0

/-- Happy path of the batch loop without a progress callback: the appended
events contain no progress event at all. -/
theorem writeBatchLoop_progress_none {K V : Type} (serEK : K → String)
    (ser : V → Bytes) (c : CassandraOnlineStoreConfig) (p project : String)
    (fv : FeatureView) (data : List (WriteDatum K V)) :
    ∀ (self : InstanceState) (sh : Shared) (sess : Session),
      self._session = some sess → CacheWF sh →
      ∃ (new : List Event) (sh' : Shared),
        writeBatchLoop serEK ser noFailures ⟨.cassandra c, p⟩ project fv none
          data self sh = (.ok (), self, sh') ∧
        CacheWF sh' ∧ sh'.events = sh.events ++ new ∧
        ∀ e ∈ new, isProgressEvt e = false := by
  induction data with
  | nil =>
    intro self sh sess hsess hwf
    exact ⟨[], sh, rfl, hwf, by simp, by simp⟩
  | cons d rest ih =>
    intro self sh sess hsess hwf
    obtain ⟨sh1, hwr, hdb, hwf1, new1, hev1, hnp1⟩ :=
      write_rows_ok ser c p project fv (serEK d.entity_key) d.values d.timestamp
        d.created_ts self sh sess hsess hwf
    obtain ⟨new2, sh', hloop, hwf', hev', hnp'⟩ := ih self sh1 sess hsess hwf1
    refine ⟨new1 ++ new2, sh', ?_, hwf', ?_, ?_⟩
    · simp only [writeBatchLoop, hwr]
      exact hloop
    · rw [hev', hev1, List.append_assoc]
    · intro e he
      rcases List.mem_append.mp he with hm | hm
      · exact hnp1 e hm
      · exact hnp' e hm

theorem countProgress_append (a b : List Event) :
    countProgress (a ++ b) = countProgress a + countProgress b := by
  simp [countProgress, List.filter_append]

/-- A list with no progress event counts zero. -/
theorem countProgress_eq_zero (l : List Event)
    (h : ∀ e ∈ l, isProgressEvt e = false) : countProgress l = 0 := by
  simp only [countProgress, List.length_eq_zero]
  exact List.filter_eq_nil_iff.mpr (fun e he => by simp [h e he])

/-- One entry segment counts exactly one progress call. -/
theorem countProgress_segment (pre2 : List Event)
    (h : ∀ e ∈ pre2, isProgressEvt e = false) :
    countProgress (pre2 ++ [Event.progressEvt 1]) = 1 := by
  rw [countProgress_append, countProgress_eq_zero pre2 h]
  rfl

/-- A flattening of segments counting one each counts its length. -/
theorem countProgress_flatten (segs : List (List Event))
    (h : ∀ seg ∈ segs, countProgress seg = 1) :
    countProgress segs.flatten = segs.length := by
  induction segs with
  | nil => rfl
  | cons a l ih =>
    rw [List.flatten_cons, countProgress_append, h a (List.mem_cons_self a l),
      ih (fun seg hs => h seg (List.mem_cons_of_mem a hs)), List.length_cons,
      Nat.add_comm]

/-- C9: with a progress callback supplied, online_write_batch (happy path)
appends one event segment per data entry, each consisting of the entry's own
write events (none of which is a progress event) followed by exactly one
progress(1) invocation; in total the callback runs exactly data.length times,
and with no callback supplied it never runs. -/
theorem C9_progress_callback {K V : Type} (serEK : K → String) (ser : V → Bytes)
    (c : CassandraOnlineStoreConfig) (p : String) (fv : FeatureView)
    (data : List (WriteDatum K V)) (self : InstanceState) (sh : Shared)
    (sess : Session) (hsess : self._session = some sess) (hwf : CacheWF sh) :
    (∃ segs : List (List Event),
      segs.length = data.length ∧
      (online_write_batch serEK ser noFailures ⟨.cassandra c, p⟩ fv data (some ())
          self sh).2.2.events = sh.events ++ segs.flatten ∧
      (∀ seg ∈ segs, ∃ pre2, seg = pre2 ++ [Event.progressEvt 1] ∧
        ∀ e ∈ pre2, isProgressEvt e = false) ∧
      countProgress
        (online_write_batch serEK ser noFailures ⟨.cassandra c, p⟩ fv data (some ())
          self sh).2.2.events = countProgress sh.events + data.length) ∧
    countProgress
      (online_write_batch serEK ser noFailures ⟨.cassandra c, p⟩ fv data none
        self sh).2.2.events = countProgress sh.events := by
  obtain ⟨segs, sh', hloop, hwf', hlen, hev', hsegs⟩ :=
    writeBatchLoop_progress_some serEK ser c p p fv data self sh sess hsess hwf
  obtain ⟨new, sh2, hloop2, hwf2, hev2, hnp2⟩ :=
    writeBatchLoop_progress_none serEK ser c p p fv data self sh sess hsess hwf
  constructor
  · refine ⟨segs, hlen, ?_, hsegs, ?_⟩
    · rw [online_write_batch, hloop, hev']
    · rw [online_write_batch, hloop]
      rw [hev', countProgress_append, countProgress_flatten segs ?_, hlen]
      intro seg hs
      obtain ⟨pre2, hshape, hplain⟩ := hsegs seg hs
      rw [hshape]
      exact countProgress_segment pre2 hplain
  · rw [online_write_batch, hloop2]
    rw [hev2, countProgress_append, countProgress_eq_zero new hnp2]
    exact Nat.add_zero _

/-- Witness for C9 at a one-entry batch. -/
theorem C9_progress_callback_witness :
    sampleInstance._session = some sampleSession ∧ CacheWF emptyShared ∧
    ((∃ segs : List (List Event),
      segs.length = [(⟨(), [(("f"), 2)], 7, none⟩ : WriteDatum Unit Nat)].length ∧
      (online_write_batch (fun _ : Unit => "ek") natSer noFailures
          ⟨.cassandra sampleConfig, "p"⟩ ⟨"fv"⟩ [⟨(), [(("f"), 2)], 7, none⟩]
          (some ()) sampleInstance emptyShared).2.2.events =
        emptyShared.events ++ segs.flatten ∧
      (∀ seg ∈ segs, ∃ pre2, seg = pre2 ++ [Event.progressEvt 1] ∧
        ∀ e ∈ pre2, isProgressEvt e = false) ∧
      countProgress
        (online_write_batch (fun _ : Unit => "ek") natSer noFailures
          ⟨.cassandra sampleConfig, "p"⟩ ⟨"fv"⟩ [⟨(), [(("f"), 2)], 7, none⟩]
          (some ()) sampleInstance emptyShared).2.2.events =
        countProgress emptyShared.events +
          [(⟨(), [(("f"), 2)], 7, none⟩ : WriteDatum Unit Nat)].length) ∧
    countProgress
      (online_write_batch (fun _ : Unit => "ek") natSer noFailures
        ⟨.cassandra sampleConfig, "p"⟩ ⟨"fv"⟩ [⟨(), [(("f"), 2)], 7, none⟩]
        none sampleInstance emptyShared).2.2.events =
      countProgress emptyShared.events) :=
  ⟨rfl, fun k h hmem => absurd hmem (List.not_mem_nil _),
    C9_progress_callback (fun _ : Unit => "ek") natSer sampleConfig ("p") ⟨"fv"⟩
      [⟨(), [(("f"), 2)], 7, none⟩] sampleInstance emptyShared sampleSession rfl
      (fun k h hmem => absurd hmem (List.not_mem_nil _))⟩

/-! Read-path lemmas. -/

/-- The read inner loop is a fold of dict updates and timestamp updates over
the rows passing the requested-features filter. -/
theorem pfr_eq {V : Type} (par : Bytes → V) (req : Option (List String)) :
    ∀ (rows : List DbRow) (res : List (String × V)) (res_ts : Option Nat),
      processFeatureRows par req rows res res_ts =
        ((matchingRows req rows).foldl
            (fun d r => dictSet d r.feature_name (par r.value)) res,
         (matchingRows req rows).foldl (fun _ r => some r.event_ts) res_ts) := by
  intro rows
  induction rows with
  | nil =>
    intro res ts
    rfl
  | cons row rest ih =>
    intro res ts
    by_cases hr : nameRequested req row.feature_name = true
    · simp only [processFeatureRows, hr, if_true, matchingRows, List.filter_cons,
        List.foldl_cons, ih]
    · have hr2 : nameRequested req row.feature_name = false :=
        Bool.not_eq_true _ ▸ Bool.of_not_eq_true hr
      simp only [processFeatureRows, hr2, Bool.false_eq_true, if_false, matchingRows,
        List.filter_cons]
      rw [ih]
      simp [matchingRows, hr2]

/-- Python dict assignment then lookup. -/
theorem dictSet_lookup {V : Type} :
    ∀ (d : List (String × V)) (k : String) (v : V) (k' : String),
      (dictSet d k v).lookup k' = if k' == k then some v else d.lookup k' := by
  intro d
  induction d with
  | nil =>
    intro k v k'
    cases hk : k' == k with
    | true => simp [dictSet, List.lookup, hk, eq_of_beq hk]
    | false =>
      have hne : ¬ k' = k := by
        intro he
        rw [he, beq_self_eq_true] at hk
        exact Bool.noConfusion hk
      simp [dictSet, List.lookup, hk, hne]
  | cons x rest ih =>
    intro k v k'
    obtain ⟨k1, v1⟩ := x
    by_cases h1 : (k1 == k) = true
    · have hk : k1 = k := eq_of_beq h1
      subst hk
      by_cases hk' : (k' == k1) = true <;> simp [dictSet, List.lookup, hk']
    · have h1f : (k1 == k) = false := Bool.not_eq_true _ ▸ Bool.of_not_eq_true h1
      by_cases hk1 : (k' == k1) = true
      · have hke : k' = k1 := eq_of_beq hk1
        subst hke
        have hkk : (k' == k) = false := h1f
        simp [dictSet, h1f, List.lookup, hkk]
      · have hk1f : (k' == k1) = false := Bool.not_eq_true _ ▸ Bool.of_not_eq_true hk1
        simp [dictSet, h1f, List.lookup, hk1f, ih]

/-- Lookup after the dict fold finds the decoded value of the last row with
the looked-up feature name. -/
theorem foldlDict_lookup {V : Type} (par : Bytes → V) :
    ∀ (l : List DbRow) (d : List (String × V)) (f : String),
      (l.foldl (fun d r => dictSet d r.feature_name (par r.value)) d).lookup f =
        match l.reverse.find? (fun r => r.feature_name == f) with
        | some r => some (par r.value)
        | none => d.lookup f := by
  intro l
  induction l with
  | nil =>
    intro d f
    rfl
  | cons r0 rest ih =>
    intro d f
    rw [List.foldl_cons, ih, List.reverse_cons, List.find?_append]
    cases hfind : rest.reverse.find? (fun r => r.feature_name == f) with
    | some r => rfl
    | none =>
      rw [dictSet_lookup]
      cases hp : (r0.feature_name == f) with
      | true =>
        have : (f == r0.feature_name) = true := by
          rw [beq_iff_eq]
          exact (eq_of_beq hp).symm
        simp [List.find?, hp, this, Option.or]
      | false =>
        have : (f == r0.feature_name) = false := by
          rw [Bool.eq_false_iff]
          intro hc
          rw [eq_of_beq hc, beq_self_eq_true] at hp
          exact Bool.noConfusion hp
        simp [List.find?, hp, this, Option.or]

/-- The timestamp fold keeps the event_ts of the last row. -/
theorem foldlTs :
    ∀ (l : List DbRow) (ts : Option Nat),
      l.foldl (fun _ r => some r.event_ts) ts =
        match l.getLast? with
        | some r => some r.event_ts
        | none => ts := by
  intro l
  induction l with
  | nil =>
    intro ts
    rfl
  | cons a rest ih =>
    intro ts
    rw [List.foldl_cons, ih]
    cases rest with
    | nil => rfl
    | cons b rest2 =>
      rw [List.getLast?_cons_cons]
      cases hgl : (b :: rest2).getLast? with
      | some r => rfl
      | none =>
        rw [List.getLast?_eq_none_iff] at hgl
        exact List.noConfusion hgl

theorem dictSet_ne_nil {V : Type} (d : List (String × V)) (k : String) (v : V) :
    dictSet d k v ≠ [] := by
  cases d with
  | nil => simp [dictSet]
  | cons x rest =>
    obtain ⟨k1, v1⟩ := x
    by_cases h1 : (k1 == k) = true <;> simp [dictSet, h1]

theorem foldlDict_ne_nil {V : Type} (par : Bytes → V) :
    ∀ (l : List DbRow) (d : List (String × V)), d ≠ [] →
      l.foldl (fun d r => dictSet d r.feature_name (par r.value)) d ≠ [] := by
  intro l
  induction l with
  | nil =>
    intro d hd
    exact hd
  | cons r0 rest ih =>
    intro d hd
    exact ih _ (dictSet_ne_nil d r0.feature_name (par r0.value))

/-- If no row matches, online_read yields the (absent, absent) pair. -/
theorem readResultOfRows_empty {V : Type} (par : Bytes → V)
    (req : Option (List String)) (rows : List DbRow)
    (h : matchingRows req rows = []) :
    readResultOfRows par req rows = (none, none) := by
  rw [readResultOfRows, pfr_eq par req rows [] none, h]
  rfl

/-- If some row matches, online_read yields the last matching row's event_ts
and the dict whose lookups are the decoded values of the last matching row
per feature name. -/
theorem readResultOfRows_pos {V : Type} (par : Bytes → V)
    (req : Option (List String)) (rows : List DbRow)
    (h : matchingRows req rows ≠ []) :
    ∃ m, readResultOfRows par req rows =
      ((match (matchingRows req rows).getLast? with
        | some r => some r.event_ts
        | none => none), some m) ∧
      ∀ fname, m.lookup fname =
        match (matchingRows req rows).reverse.find?
            (fun r => r.feature_name == fname) with
        | some r => some (par r.value)
        | none => none := by
  rw [readResultOfRows, pfr_eq par req rows [] none]
  have hne : (matchingRows req rows).foldl
      (fun d r => dictSet d r.feature_name (par r.value)) [] ≠ [] := by
    cases hm : matchingRows req rows with
    | nil => exact absurd hm h
    | cons r0 rest2 =>
      rw [List.foldl_cons]
      exact foldlDict_ne_nil par rest2 _ (dictSet_ne_nil [] r0.feature_name (par r0.value))
  refine ⟨(matchingRows req rows).foldl
      (fun d r => dictSet d r.feature_name (par r.value)) [], ?_, ?_⟩
  · have hie : ((matchingRows req rows).foldl
        (fun d r => dictSet d r.feature_name (par r.value)) []).isEmpty = false := by
      cases hfe : (matchingRows req rows).foldl
          (fun d r => dictSet d r.feature_name (par r.value)) [] with
      | nil => exact absurd hfe hne
      | cons y ys => rfl
    simp only [hie, Bool.false_eq_true, if_false]
    rw [foldlTs]
  · intro fname
    rw [foldlDict_lookup]
    cases List.find? (fun r => r.feature_name == fname) (matchingRows req rows).reverse <;> rfl

/-- Happy path of _read_rows_by_entity_key under a cached session: it returns
the partition rows in clustering order, leaves the database and the instance
untouched and keeps the cache well-formed. -/
theorem read_rows_spec (c : CassandraOnlineStoreConfig) (p project : String)
    (fv : FeatureView) (ekbin : String) (self : InstanceState) (sh : Shared)
    (sess : Session) (hsess : self._session = some sess) (hwf : CacheWF sh) :
    ∃ sh1, _read_rows_by_entity_key noFailures ⟨.cassandra c, p⟩ project fv ekbin
        (some [("feature_name"), ("value"), ("event_ts")]) self sh =
      (.ok (selectRows sh.db (_fq_table_name (pyStr self._keyspace) project fv) ekbin),
        self, sh1) ∧
      sh1.db = sh.db ∧ CacheWF sh1 := by
  obtain ⟨h, shA, cols2, hcall, htext, hdbA, hlkA, hwfA, newA, hevA, hprepA⟩ :=
    getCql_select_spec c p (_fq_table_name (pyStr self._keyspace) project fv)
      (String.intercalate (", ") [("feature_name"), ("value"), ("event_ts")])
      self sh sess hsess hwf
  have hsx : sessionExecute noFailures (.prepared h) [CqlParam.str ekbin] shA.db =
      .ok (shA.db, selectRows shA.db
        (_fq_table_name (pyStr self._keyspace) project fv) ekbin) := by
    simp [sessionExecute, noFailures, stmtText, htext]
  have hexec : execOnSession noFailures (.prepared h) [CqlParam.str ekbin] shA =
      (.ok (selectRows shA.db (_fq_table_name (pyStr self._keyspace) project fv) ekbin),
        ⟨shA.prepared_statements, shA.prepareSeq, shA.db,
          shA.events ++ [Event.execEvt (.prepared h) [CqlParam.str ekbin]]⟩) := by
    simp [execOnSession, hsx]
  rw [hdbA] at hexec
  refine ⟨⟨shA.prepared_statements, shA.prepareSeq, sh.db,
      shA.events ++ [Event.execEvt (.prepared h) [CqlParam.str ekbin]]⟩,
    ?_, rfl, cacheWF_congr shA _ rfl hwfA⟩
  simp only [_read_rows_by_entity_key, getSession_cached c p self sess hsess, hcall,
    hexec]

/-- Happy path of the read loop: one result per key, appended in order, each
computed by readResultOfRows from the partition of the (unchanged) database;
the cache stays well-formed. -/
theorem readLoop_spec {K V : Type} (serEK : K → String) (par : Bytes → V)
    (c : CassandraOnlineStoreConfig) (p project : String) (fv : FeatureView)
    (req : Option (List String)) (keys : List K) :
    ∀ (acc : List (ReadResult V)) (self : InstanceState) (sh : Shared)
      (sess : Session), self._session = some sess → CacheWF sh →
      ∃ sh', readLoop serEK par noFailures ⟨.cassandra c, p⟩ project fv req keys
          acc self sh =
        (.ok (acc ++ keys.map (fun k => readResultOfRows par req
          (selectRows sh.db (_fq_table_name (pyStr self._keyspace) project fv)
            (serEK k)))), self, sh') ∧
      sh'.db = sh.db ∧ CacheWF sh' := by
  induction keys with
  | nil =>
    intro acc self sh sess hsess hwf
    exact ⟨sh, by simp [readLoop], rfl, hwf⟩
  | cons k rest ih =>
    intro acc self sh sess hsess hwf
    obtain ⟨sh1, hrr, hdb1, hwf1⟩ :=
      read_rows_spec c p project fv (serEK k) self sh sess hsess hwf
    obtain ⟨sh', hloop, hdb', hwf'⟩ :=
      ih (acc ++ [readResultOfRows par req
        (selectRows sh.db (_fq_table_name (pyStr self._keyspace) project fv)
          (serEK k))]) self sh1 sess hsess hwf1
    rw [hdb1] at hloop
    refine ⟨sh', ?_, by rw [hdb', hdb1], hwf'⟩
    simp only [readLoop, hrr, readResultOfRows] at hloop ⊢
    rw [hloop]
    simp

/-- C3: online_read succeeds with exactly one result per input entity key, in
input order; for each key, if no returned row passes the requested-features
filter the result is (absent, absent); otherwise the representative timestamp
is the event_ts of the last matching row in return order and the feature
map's entry at each feature name is the decoded value of the last matching
row carrying that name (absent when no matching row carries it). -/
theorem C3_read_postcondition {K V : Type} (serEK : K → String) (par : Bytes → V)
    (c : CassandraOnlineStoreConfig) (p : String) (fv : FeatureView)
    (entity_keys : List K) (req : Option (List String)) (self : InstanceState)
    (sh : Shared) (sess : Session) (hsess : self._session = some sess)
    (hwf : CacheWF sh) :
    ∃ (results : List (ReadResult V)) (sh' : Shared),
      online_read serEK par noFailures ⟨.cassandra c, p⟩ fv entity_keys req
        self sh = (.ok results, self, sh') ∧
      results.length = entity_keys.length ∧
      ∀ (i : Nat) (k : K), entity_keys[i]? = some k →
        ∃ pr, results[i]? = some pr ∧
          (matchingRows req (selectRows sh.db
              (_fq_table_name (pyStr self._keyspace) p fv) (serEK k)) = [] →
            pr = (none, none)) ∧
          (matchingRows req (selectRows sh.db
              (_fq_table_name (pyStr self._keyspace) p fv) (serEK k)) ≠ [] →
            ∃ m, pr = ((match (matchingRows req (selectRows sh.db
                  (_fq_table_name (pyStr self._keyspace) p fv)
                  (serEK k))).getLast? with
                | some r => some r.event_ts
                | none => none), some m) ∧
              ∀ fname, m.lookup fname =
                match (matchingRows req (selectRows sh.db
                    (_fq_table_name (pyStr self._keyspace) p fv)
                    (serEK k))).reverse.find? (fun r => r.feature_name == fname) with
                | some r => some (par r.value)
                | none => none) := by
  obtain ⟨sh', hloop, hdb', hwf'⟩ :=
    readLoop_spec serEK par c p p fv req entity_keys [] self sh sess hsess hwf
  refine ⟨[] ++ entity_keys.map (fun k => readResultOfRows par req
      (selectRows sh.db (_fq_table_name (pyStr self._keyspace) p fv) (serEK k))),
    sh', ?_, ?_, ?_⟩
  · rw [online_read]
    exact hloop
  · simp
  · intro i k hk
    refine ⟨readResultOfRows par req (selectRows sh.db
      (_fq_table_name (pyStr self._keyspace) p fv) (serEK k)), ?_, ?_, ?_⟩
    · simp [List.getElem?_map, hk]
    · intro hempty
      exact readResultOfRows_empty par req _ hempty
    · intro hne
      obtain ⟨m, hpr, hlook⟩ := readResultOfRows_pos par req _ hne
      exact ⟨m, hpr, hlook⟩

/-- Witness for C3 at a concrete read of one key from an empty store. -/
theorem C3_read_postcondition_witness :
    sampleInstance._session = some sampleSession ∧ CacheWF emptyShared ∧
    (∃ (results : List (ReadResult Nat)) (sh' : Shared),
      online_read (fun _ : Unit => "ek") natPar noFailures
        ⟨.cassandra sampleConfig, "p"⟩ ⟨"fv"⟩ [()] none sampleInstance
        emptyShared = (.ok results, sampleInstance, sh') ∧
      results.length = [()].length ∧
      ∀ (i : Nat) (k : Unit), [()][i]? = some k →
        ∃ pr, results[i]? = some pr ∧
          (matchingRows none (selectRows emptyShared.db
              (_fq_table_name (pyStr sampleInstance._keyspace) ("p") ⟨"fv"⟩)
              ((fun _ : Unit => "ek") k)) = [] →
            pr = (none, none)) ∧
          (matchingRows none (selectRows emptyShared.db
              (_fq_table_name (pyStr sampleInstance._keyspace) ("p") ⟨"fv"⟩)
              ((fun _ : Unit => "ek") k)) ≠ [] →
            ∃ m, pr = ((match (matchingRows none (selectRows emptyShared.db
                  (_fq_table_name (pyStr sampleInstance._keyspace) ("p") ⟨"fv"⟩)
                  ((fun _ : Unit => "ek") k))).getLast? with
                | some r => some r.event_ts
                | none => none), some m) ∧
              ∀ fname, m.lookup fname =
                match (matchingRows none (selectRows emptyShared.db
                    (_fq_table_name (pyStr sampleInstance._keyspace) ("p") ⟨"fv"⟩)
                    ((fun _ : Unit => "ek") k))).reverse.find?
                    (fun r => r.feature_name == fname) with
                | some r => some (natPar r.value)
                | none => none)) :=
  ⟨rfl, fun k h hmem => absurd hmem (List.not_mem_nil _),
    C3_read_postcondition (fun _ : Unit => "ek") natPar sampleConfig ("p") ⟨"fv"⟩
      [()] none sampleInstance emptyShared sampleSession rfl
      (fun k h hmem => absurd hmem (List.not_mem_nil _))⟩

/-! Database lemmas for the round trip. -/

/-- The boolean row-key test in its propositional form. -/
theorem keyPred_iff (r : DbRow) (a b c : String) :
    (r.table == a && r.entity_key == b && r.feature_name == c) = true ↔
      (r.table = a ∧ r.entity_key = b ∧ r.feature_name = c) := by
  simp [and_assoc]

/-- Rows of keys other than the upserted one are untouched by an insert. -/
theorem applyInsertCql_keyFilter_other (ft f : String) (v : Bytes) (ek : String)
    (t : Nat) (cts : Option Nat) (ft' ek' f' : String)
    (hne : ¬(ft' = ft ∧ ek' = ek ∧ f' = f)) :
    ∀ db : Db, keyFilter ft' ek' f' (applyInsertCql ft f v ek t cts db) =
      keyFilter ft' ek' f' db := by
  intro db
  induction db with
  | nil =>
    simp only [applyInsertCql, keyFilter, List.filter_nil, List.filter_cons]
    rw [if_neg]
    intro hp
    simp only [Bool.and_eq_true, beq_iff_eq] at hp
    exact hne ⟨hp.1.1.symm, hp.1.2.symm, hp.2.symm⟩
  | cons r rest ih =>
    by_cases hkey : r.table = ft ∧ r.entity_key = ek ∧ r.feature_name = f
    · simp only [applyInsertCql]
      rw [if_pos ((keyPred_iff r ft ek f).mpr hkey)]
      by_cases hkey' : r.table = ft' ∧ r.entity_key = ek' ∧ r.feature_name = f'
      · exact absurd ⟨hkey'.1.symm.trans hkey.1, hkey'.2.1.symm.trans hkey.2.1,
          hkey'.2.2.symm.trans hkey.2.2⟩ hne
      · simp only [keyFilter, List.filter_cons]
        rw [if_neg (fun hp => hkey' ((keyPred_iff r ft' ek' f').mp hp)),
          if_neg (fun hp => hkey' ((keyPred_iff r ft' ek' f').mp hp))]
    · simp only [applyInsertCql]
      rw [if_neg (fun hp => hkey ((keyPred_iff r ft ek f).mp hp))]
      simp only [keyFilter, List.filter_cons] at ih ⊢
      rw [ih]

/-- After an upsert, the upserted key holds exactly one row, carrying the
written value and event timestamp. -/
theorem applyInsertCql_keyFilter_self (ft f : String) (v : Bytes) (ek : String)
    (t : Nat) (cts : Option Nat) :
    ∀ db : Db, DbWF db →
      ∃ c', keyFilter ft ek f (applyInsertCql ft f v ek t cts db) =
        [⟨ft, ek, f, v, t, c'⟩] := by
  intro db
  induction db with
  | nil =>
    intro _
    refine ⟨cts, ?_⟩
    simp only [applyInsertCql, keyFilter, List.filter_cons, List.filter_nil]
    simp
  | cons r rest ih =>
    intro hwf
    have hr : ∀ s ∈ rest, ¬ sameKey r s := (List.pairwise_cons.mp hwf).1
    have hrest : DbWF rest := (List.pairwise_cons.mp hwf).2
    by_cases hkey : r.table = ft ∧ r.entity_key = ek ∧ r.feature_name = f
    · refine ⟨match cts with
        | none => r.created_ts
        | some c => some c, ?_⟩
      simp only [applyInsertCql]
      rw [if_pos ((keyPred_iff r ft ek f).mpr hkey)]
      simp only [keyFilter, List.filter_cons]
      rw [if_pos ((keyPred_iff r ft ek f).mpr hkey)]
      have hnil : List.filter
          (fun s => s.table == ft && s.entity_key == ek && s.feature_name == f)
          rest = [] := by
        rw [List.filter_eq_nil_iff]
        intro s hs hps
        obtain ⟨h1, h2, h3⟩ := (keyPred_iff s ft ek f).mp hps
        exact hr s hs ⟨hkey.1.trans h1.symm, hkey.2.1.trans h2.symm,
          hkey.2.2.trans h3.symm⟩
      rw [hnil]
      have : r.table = ft ∧ r.entity_key = ek ∧ r.feature_name = f := hkey
      obtain ⟨h1, h2, h3⟩ := this
      cases r
      simp_all
      cases cts <;> rfl
    · obtain ⟨c', hc'⟩ := ih hrest
      refine ⟨c', ?_⟩
      simp only [applyInsertCql]
      rw [if_neg (fun hp => hkey ((keyPred_iff r ft ek f).mp hp))]
      simp only [keyFilter, List.filter_cons] at hc' ⊢
      rw [if_neg (fun hp => hkey ((keyPred_iff r ft ek f).mp hp)), hc']

/-- Every row of an upserted database either was there or carries the
upserted key. -/
theorem applyInsertCql_mem (ft f : String) (v : Bytes) (ek : String) (t : Nat)
    (cts : Option Nat) :
    ∀ (db : Db) (x : DbRow), x ∈ applyInsertCql ft f v ek t cts db →
      x ∈ db ∨ (x.table = ft ∧ x.entity_key = ek ∧ x.feature_name = f) := by
  intro db
  induction db with
  | nil =>
    intro x hx
    simp only [applyInsertCql, List.mem_singleton] at hx
    subst hx
    exact Or.inr ⟨rfl, rfl, rfl⟩
  | cons r rest ih =>
    intro x hx
    by_cases hkey : r.table = ft ∧ r.entity_key = ek ∧ r.feature_name = f
    · simp only [applyInsertCql] at hx
      rw [if_pos ((keyPred_iff r ft ek f).mpr hkey)] at hx
      rcases List.mem_cons.mp hx with h0 | h0
      · subst h0
        exact Or.inr ⟨hkey.1, hkey.2.1, hkey.2.2⟩
      · exact Or.inl (List.mem_cons_of_mem r h0)
    · simp only [applyInsertCql] at hx
      rw [if_neg (fun hp => hkey ((keyPred_iff r ft ek f).mp hp))] at hx
      rcases List.mem_cons.mp hx with h0 | h0
      · subst h0
        exact Or.inl (List.mem_cons_self x rest)
      · rcases ih x h0 with h1 | h1
        · exact Or.inl (List.mem_cons_of_mem r h1)
        · exact Or.inr h1

/-- Upserts preserve database well-formedness. -/
theorem applyInsertCql_WF (ft f : String) (v : Bytes) (ek : String) (t : Nat)
    (cts : Option Nat) :
    ∀ db : Db, DbWF db → DbWF (applyInsertCql ft f v ek t cts db) := by
  intro db
  induction db with
  | nil =>
    intro _
    exact List.pairwise_singleton _ _
  | cons r rest ih =>
    intro hwf
    have hr : ∀ s ∈ rest, ¬ sameKey r s := (List.pairwise_cons.mp hwf).1
    have hrest : DbWF rest := (List.pairwise_cons.mp hwf).2
    by_cases hkey : r.table = ft ∧ r.entity_key = ek ∧ r.feature_name = f
    · simp only [applyInsertCql]
      rw [if_pos ((keyPred_iff r ft ek f).mpr hkey)]
      rw [DbWF, List.pairwise_cons]
      exact ⟨fun s hs hsk => hr s hs hsk, hrest⟩
    · simp only [applyInsertCql]
      rw [if_neg (fun hp => hkey ((keyPred_iff r ft ek f).mp hp))]
      rw [DbWF, List.pairwise_cons]
      refine ⟨?_, ih hrest⟩
      intro x hx hsk
      rcases applyInsertCql_mem ft f v ek t cts rest x hx with h0 | h0
      · exact hr x h0 hsk
      · exact hkey ⟨hsk.1.trans h0.1, hsk.2.1.trans h0.2.1, hsk.2.2.trans h0.2.2⟩

/-- A write sequence not containing a feature name leaves that key's rows
untouched. -/
theorem applyWritesBytes_keyFilter_untouched (ft ek : String) (t : Nat)
    (cts : Option Nat) (f : String) :
    ∀ (l : List (String × Bytes)) (db : Db), f ∉ l.map Prod.fst →
      keyFilter ft ek f (applyWritesBytes ft ek t cts l db) =
        keyFilter ft ek f db := by
  intro l
  induction l with
  | nil =>
    intro db _
    rfl
  | cons x rest ih =>
    intro db hnotin
    obtain ⟨g, b⟩ := x
    simp only [List.map_cons, List.mem_cons] at hnotin
    push_neg at hnotin
    rw [applyWritesBytes, ih _ hnotin.2,
      applyInsertCql_keyFilter_other ft g b ek t cts ft ek f
        (fun hc => hnotin.1 hc.2.2) db]

/-- Write sequences preserve database well-formedness. -/
theorem applyWritesBytes_WF (ft ek : String) (t : Nat) (cts : Option Nat) :
    ∀ (l : List (String × Bytes)) (db : Db), DbWF db →
      DbWF (applyWritesBytes ft ek t cts l db) := by
  intro l
  induction l with
  | nil =>
    intro db hdb
    exact hdb
  | cons x rest ih =>
    intro db hdb
    obtain ⟨g, b⟩ := x
    exact ih _ (applyInsertCql_WF ft g b ek t cts db hdb)

/-- After a write sequence with distinct feature names, a written feature's
key holds exactly one row, carrying the bytes written for it. -/
theorem applyWritesBytes_keyFilter_self (ft ek : String) (t : Nat)
    (cts : Option Nat) :
    ∀ (l : List (String × Bytes)) (db : Db) (f : String) (b : Bytes),
      (l.map Prod.fst).Nodup → (f, b) ∈ l → DbWF db →
      ∃ c', keyFilter ft ek f (applyWritesBytes ft ek t cts l db) =
        [⟨ft, ek, f, b, t, c'⟩] := by
  intro l
  induction l with
  | nil =>
    intro db f b _ hmem _
    exact absurd hmem (List.not_mem_nil _)
  | cons x rest ih =>
    intro db f b hnd hmem hdb
    obtain ⟨g, b0⟩ := x
    rcases List.mem_cons.mp hmem with h0 | h0
    · obtain ⟨hfg, hbb⟩ : f = g ∧ b = b0 := by
        simpa [Prod.ext_iff] using h0
      subst hfg
      subst hbb
      obtain ⟨c', hc'⟩ := applyInsertCql_keyFilter_self ft f b ek t cts db hdb
      refine ⟨c', ?_⟩
      rw [applyWritesBytes,
        applyWritesBytes_keyFilter_untouched ft ek t cts f rest _
          (by simpa using (List.nodup_cons.mp hnd).1), hc']
    · have hnd2 : (rest.map Prod.fst).Nodup := (List.nodup_cons.mp hnd).2
      exact ih _ f b hnd2 h0 (applyInsertCql_WF ft g b0 ek t cts db hdb)

/-- find? on a list whose filter is a singleton returns that element. -/
theorem find?_eq_of_filter_singleton {α : Type} (p : α → Bool) :
    ∀ (l : List α) (a : α), l.filter p = [a] → l.find? p = some a := by
  intro l
  induction l with
  | nil =>
    intro a h
    exact absurd h (by simp)
  | cons x xs ih =>
    intro a h
    cases hp : p x with
    | true =>
      rw [List.filter_cons, hp] at h
      simp only [if_true] at h
      have hxa : x = a ∧ xs.filter p = [] := by
        simpa using h
      rw [List.find?_cons_of_pos _ hp, hxa.1]
    | false =>
      rw [List.filter_cons, hp] at h
      simp only [Bool.false_eq_true, if_false] at h
      rw [List.find?_cons_of_neg _ (by simp [hp])]
      exact ih a h

/-- If a key holds exactly one row in the database, the clustering-ordered
partition scan contains exactly that row under the feature name. -/
theorem selectRows_filter_name (db : Db) (ft ek f : String) (row : DbRow)
    (h : keyFilter ft ek f db = [row]) :
    (selectRows db ft ek).filter (fun r => r.feature_name == f) = [row] := by
  have hperm : List.Perm
      ((selectRows db ft ek).filter (fun r => r.feature_name == f))
      ((db.filter (fun r => r.table == ft && r.entity_key == ek)).filter
        (fun r => r.feature_name == f)) :=
    (List.perm_insertionSort _ _).filter _
  have heq : (db.filter (fun r => r.table == ft && r.entity_key == ek)).filter
      (fun r => r.feature_name == f) = keyFilter ft ek f db := by
    rw [List.filter_filter]
    apply List.filter_congr
    intro x _
    cases h1 : x.table == ft <;> cases h2 : x.entity_key == ek <;>
      cases h3 : x.feature_name == f <;> simp [h1, h2, h3]
  rw [heq, h] at hperm
  exact List.perm_singleton.mp hperm

/-- C1: writing an entry (K, {..., f: V, ...}, ts) through online_write_batch
and then reading K back through online_read (with f requested or no
projection given) yields a feature map whose entry at f decodes to V, given
that the external value codec round-trips. -/
theorem C1_round_trip {K V : Type} (serEK : K → String) (ser : V → Bytes)
    (par : Bytes → V) (c : CassandraOnlineStoreConfig) (p : String)
    (fv : FeatureView) (entity_key : K) (vals : List (String × V)) (ts : Nat)
    (cts : Option Nat) (fname : String) (v : V) (req : Option (List String))
    (prog : Option Unit) (self : InstanceState) (sh : Shared) (sess : Session)
    (hsess : self._session = some sess) (hwf : CacheWF sh) (hdb : DbWF sh.db)
    (hnd : (vals.map Prod.fst).Nodup) (hmem : (fname, v) ∈ vals)
    (hpar : par (ser v) = v) (hreq : nameRequested req fname = true) :
    ∃ sh1, online_write_batch serEK ser noFailures ⟨.cassandra c, p⟩ fv
        [⟨entity_key, vals, ts, cts⟩] prog self sh = (.ok (), self, sh1) ∧
      ∃ (results : List (ReadResult V)) (sh2 : Shared) (tsr : Option Nat)
        (m : List (String × V)),
        online_read serEK par noFailures ⟨.cassandra c, p⟩ fv [entity_key] req
          self sh1 = (.ok results, self, sh2) ∧
        results = [(tsr, some m)] ∧ m.lookup fname = some v := by
  obtain ⟨shW, hwr, hdbW, hwfW, newW, hevW, hnpW⟩ :=
    write_rows_ok ser c p p fv (serEK entity_key) vals ts cts self sh sess hsess hwf
  have hbatch : ∃ sh1, online_write_batch serEK ser noFailures ⟨.cassandra c, p⟩ fv
      [⟨entity_key, vals, ts, cts⟩] prog self sh = (.ok (), self, sh1) ∧
      sh1.db = shW.db ∧ sh1.prepared_statements = shW.prepared_statements := by
    cases prog with
    | none =>
      exact ⟨shW, by simp only [online_write_batch, writeBatchLoop, hwr], rfl, rfl⟩
    | some u =>
      exact ⟨{ shW with events := shW.events ++ [Event.progressEvt 1] },
        by simp only [online_write_batch, writeBatchLoop, hwr], rfl, rfl⟩
  obtain ⟨sh1, hbatcheq, hdb1, hc1⟩ := hbatch
  have hwf1 : CacheWF sh1 := cacheWF_congr shW sh1 hc1 hwfW
  have hdbsh1 : sh1.db =
      applyWritesBytes (_fq_table_name (pyStr self._keyspace) p fv)
        (serEK entity_key) ts cts
        (vals.map (fun fv2 => (fv2.1, ser fv2.2))) sh.db := hdb1.trans hdbW
  obtain ⟨sh2, hread, hdb2, hwf2⟩ :=
    readLoop_spec serEK par c p p fv req [entity_key] [] self sh1 sess hsess hwf1
  obtain ⟨c', hkf⟩ : ∃ c', keyFilter (_fq_table_name (pyStr self._keyspace) p fv)
      (serEK entity_key) fname sh1.db =
      [⟨_fq_table_name (pyStr self._keyspace) p fv, serEK entity_key, fname,
        ser v, ts, c'⟩] := by
    rw [hdbsh1]
    apply applyWritesBytes_keyFilter_self
    · simpa [List.map_map, Function.comp] using hnd
    · exact List.mem_map.mpr ⟨(fname, v), hmem, rfl⟩
    · exact hdb
  have hsel : (selectRows sh1.db (_fq_table_name (pyStr self._keyspace) p fv)
        (serEK entity_key)).filter (fun r => r.feature_name == fname) =
      [⟨_fq_table_name (pyStr self._keyspace) p fv, serEK entity_key, fname,
        ser v, ts, c'⟩] :=
    selectRows_filter_name _ _ _ _ _ hkf
  have hmatchfil : (matchingRows req (selectRows sh1.db
        (_fq_table_name (pyStr self._keyspace) p fv)
        (serEK entity_key))).filter (fun r => r.feature_name == fname) =
      [⟨_fq_table_name (pyStr self._keyspace) p fv, serEK entity_key, fname,
        ser v, ts, c'⟩] := by
    rw [matchingRows, List.filter_filter]
    rw [List.filter_congr (fun x _ => ?_)]
    · exact hsel
    · cases hx : x.feature_name == fname with
      | false => simp [hx]
      | true =>
        have hxf : x.feature_name = fname := eq_of_beq hx
        simp [hx, hxf, hreq]
  have hrowmem : (⟨_fq_table_name (pyStr self._keyspace) p fv, serEK entity_key,
      fname, ser v, ts, c'⟩ : DbRow) ∈ matchingRows req (selectRows sh1.db
        (_fq_table_name (pyStr self._keyspace) p fv) (serEK entity_key)) := by
    apply List.mem_of_mem_filter (p := fun r => r.feature_name == fname)
    rw [hmatchfil]
    exact List.mem_singleton.mpr rfl
  have hne : matchingRows req (selectRows sh1.db
      (_fq_table_name (pyStr self._keyspace) p fv) (serEK entity_key)) ≠ [] :=
    List.ne_nil_of_mem hrowmem
  obtain ⟨m, hpr, hlook⟩ := readResultOfRows_pos par req _ hne
  have hfind : (matchingRows req (selectRows sh1.db
        (_fq_table_name (pyStr self._keyspace) p fv)
        (serEK entity_key))).reverse.find? (fun r => r.feature_name == fname) =
      some ⟨_fq_table_name (pyStr self._keyspace) p fv, serEK entity_key, fname,
        ser v, ts, c'⟩ := by
    apply find?_eq_of_filter_singleton
    rw [List.filter_reverse, hmatchfil]
    rfl
  have hlook0 : m.lookup fname = some v := by
    rw [hlook fname, hfind]
    simpa using hpar
  refine ⟨sh1, hbatcheq, _, sh2,
    (match (matchingRows req (selectRows sh1.db
        (_fq_table_name (pyStr self._keyspace) p fv)
        (serEK entity_key))).getLast? with
      | some r => some r.event_ts
      | none => none), m, hread, ?_, hlook0⟩
  rw [List.nil_append, List.map_cons, List.map_nil, hpr]

/-- Witness for C1 writing {f: 5} at timestamp 9 with no creation timestamp
into an empty store and reading it back. -/
theorem C1_round_trip_witness :
    sampleInstance._session = some sampleSession ∧ CacheWF emptyShared ∧
    DbWF emptyShared.db ∧
    (([(("f"), 5)] : List (String × Nat)).map Prod.fst).Nodup ∧
    ((("f"), 5) ∈ ([(("f"), 5)] : List (String × Nat))) ∧
    natPar (natSer 5) = 5 ∧ nameRequested none ("f") = true ∧
    (∃ sh1, online_write_batch (fun _ : Unit => "ek") natSer noFailures
        ⟨.cassandra sampleConfig, "p"⟩ ⟨"fv"⟩ [⟨(), [(("f"), 5)], 9, none⟩] none
        sampleInstance emptyShared = (.ok (), sampleInstance, sh1) ∧
      ∃ (results : List (ReadResult Nat)) (sh2 : Shared) (tsr : Option Nat)
        (m : List (String × Nat)),
        online_read (fun _ : Unit => "ek") natPar noFailures
          ⟨.cassandra sampleConfig, "p"⟩ ⟨"fv"⟩ [()] none sampleInstance sh1 =
          (.ok results, sampleInstance, sh2) ∧
        results = [(tsr, some m)] ∧ m.lookup ("f") = some 5) :=
  ⟨rfl, fun k h hmem => absurd hmem (List.not_mem_nil _), List.Pairwise.nil,
    by decide, by decide, rfl, rfl,
    C1_round_trip (fun _ : Unit => "ek") natSer natPar sampleConfig ("p") ⟨"fv"⟩
      () [(("f"), 5)] 9 none ("f") 5 none none sampleInstance emptyShared
      sampleSession rfl (fun k h hmem => absurd hmem (List.not_mem_nil _))
      List.Pairwise.nil (by decide) (by decide) rfl rfl⟩

end FeastCassandra
